import Mathlib

/-!
Verification of the open-tabs entity-store core, session manager,
request gateway and signed-request protocol.

Shallow embedding of the TypeScript sources:
* `tab-store` (`addTab`, `updateTab`, `deleteTab`, `moveTab`, `loadTabs`),
* `collection-store` (`addCollection`, `updateCollection`, `deleteCollection`, `loadCollections`),
* `space-store` (`addSpace`, `updateSpace`, `deleteSpace`, `setActiveSpace`, `loadSpaces`),
* `auth-store` (`isTokenExpired`),
* `api/client.ts` (`ApiClient.request`),
* `utils/signature.ts` (`generateSignature`, over an executable HMAC-SHA-256).

Conventions of the embedding:
* `chrome.storage.local` is modelled by an explicit `stored` field in each
  store's state; `chrome.storage.local.set` becomes an assignment to it.
* Zustand's `set`/`get` become explicit state passing; each action takes the
  current state and returns the result paired with the next state.  A thrown
  exception becomes `Except.error` in the first component with the state left
  unchanged (a throw happens before any `await chrome.storage.local.set`).
* `generateUUID()` and `nowISO()` are effectful; they are passed in as
  explicit arguments (`newId`, `now`).
* TypeScript optional fields (`favicon?: string`) become `Option`.  An absent
  optional field is JS `undefined`, which is falsy; `is_deleted?: boolean` is
  only ever consulted through its truthiness (`!t.is_deleted`), so it is
  modelled as a `Bool` that defaults to `false`.
* In an update patch, a key can be *absent* (does not override on object
  spread) or *present with value `undefined`* (overrides, clearing the field).
  A patch field of an `Option`-valued record field is therefore modelled as
  `Option (Option _)`: outer `none` = key absent, `some v` = key present with
  value `v` (where `v = none` is JS `undefined`).
-/

namespace OpenTabs

/-- Typed rendering of the errors thrown by the stores
(`throw new Error('Tab not found')`, `throw new Error('... already has 1000 tabs')`). -/
inductive StoreErr where
  | notFound
  | capacityExceeded
  deriving DecidableEq, Repr

/-! ## Tab data model (`shared/types/tab.ts`) -/

/-- The optional link-preview metadata block (`Tab.meta`). -/
structure TabMeta where
  og_image : Option String := none
  og_description : Option String := none
  deriving DecidableEq, Repr

/-- A `Tab` record (`shared/types/tab.ts`). -/
structure Tab where
  id : String
  collection_id : String
  title : String
  url : String
  favicon : Option String := none
  description : Option String := none
  order : Nat
  tags : Option (List String) := none
  created_at : String
  updated_at : String
  synced_at : Option String := none
  is_deleted : Bool := false
  meta : Option TabMeta := none
  deriving DecidableEq, Repr

/-- `CreateTabInput` (`shared/types/tab.ts`). -/
structure CreateTabInput where
  collection_id : String
  title : String
  url : String
  favicon : Option String := none
  description : Option String := none
  tags : Option (List String) := none
  deriving DecidableEq, Repr

/-- `UpdateTabInput` (`shared/types/tab.ts`): every key is optional, and no
`is_deleted` key exists.  Outer `none` = key absent. -/
structure UpdateTabInput where
  title : Option String := none
  url : Option String := none
  favicon : Option (Option String) := none
  description : Option (Option String) := none
  order : Option Nat := none
  tags : Option (List String) := none
  collection_id : Option String := none
  deriving DecidableEq, Repr

/-- State of the tab store: the persisted collection under
`STORAGE_KEYS.TABS` plus the zustand in-memory fields. -/
structure TabState where
  stored : List Tab
  tabs : List Tab
  isLoading : Bool := false
  error : Option String := none
  deriving DecidableEq, Repr

def MAX_TABS_PER_COLLECTION : Nat := 1000

/-- `loadTabs` success path: reads the whole persisted collection and
publishes only the non-deleted records. -/
def loadTabs (st : TabState) : TabState :=
  { st with tabs := st.stored.filter (fun t => !t.is_deleted),
            isLoading := false, error := none }

/-- `loadTabs` failure path (storage read threw): the error flag is set and
the in-memory list is left as it was. -/
def loadTabsFailure (st : TabState) : TabState :=
  { st with isLoading := false, error := some "Failed to load tabs" }

/-- Object-spread application of an `UpdateTabInput` patch
(`{ ...tabs[index], ...input, updated_at: nowISO() }`). -/
def applyTabUpdate (t : Tab) (input : UpdateTabInput) (now : String) : Tab :=
  { t with
    title := input.title.getD t.title
    url := input.url.getD t.url
    favicon := input.favicon.getD t.favicon
    description := input.description.getD t.description
    order := input.order.getD t.order
    tags := match input.tags with | some v => some v | none => t.tags
    collection_id := input.collection_id.getD t.collection_id
    updated_at := now }

/-- `updateTab(id, input)`: locate by identifier only (`findIndex` over the
in-memory list — no tombstone filter), throw `'Tab not found'` when absent,
otherwise apply the patch, persist the whole list, replace in-memory state. -/
def updateTab (now : String) (st : TabState) (id : String) (input : UpdateTabInput) :
    (Except StoreErr Tab) × TabState :=
  let index := st.tabs.findIdx (fun t => t.id = id)
  if h : index < st.tabs.length then
    let updatedTab := applyTabUpdate (st.tabs.get ⟨index, h⟩) input now
    let updatedTabs := st.tabs.set index updatedTab
    (Except.ok updatedTab, { st with stored := updatedTabs, tabs := updatedTabs })
  else
    (Except.error StoreErr.notFound, st)

/-- `addTab(input)`: capacity check first, then duplicate-URL merge, then
construction of a fresh record appended at the end. -/
def addTab (newId now : String) (st : TabState) (input : CreateTabInput) :
    (Except StoreErr Tab) × TabState :=
  let collectionTabs := st.tabs.filter (fun t => t.collection_id = input.collection_id)
  if MAX_TABS_PER_COLLECTION ≤ collectionTabs.length then
    (Except.error StoreErr.capacityExceeded, st)
  else
    match collectionTabs.find? (fun t => t.url = input.url) with
    | some existingTab =>
        -- `return get().updateTab(existingTab.id, { title: input.title, favicon: input.favicon })`
        -- both keys are present on the patch object (favicon possibly `undefined`).
        updateTab now st existingTab.id
          { title := some input.title, favicon := some input.favicon }
    | none =>
        let newTab : Tab :=
          { id := newId
            collection_id := input.collection_id
            title := input.title
            url := input.url
            favicon := input.favicon
            description := input.description
            order := collectionTabs.length
            tags := input.tags
            created_at := now
            updated_at := now }
        let updatedTabs := st.tabs ++ [newTab]
        (Except.ok newTab, { st with stored := updatedTabs, tabs := updatedTabs })

/-- `deleteTab(id)`: idempotent no-op when absent; otherwise soft-delete
(flag + re-stamp), persist the full flagged list, publish the filtered list. -/
def deleteTab (now : String) (st : TabState) (id : String) : TabState :=
  let index := st.tabs.findIdx (fun t => t.id = id)
  if index < st.tabs.length then
    let updatedTabs := st.tabs.map
      (fun t => if t.id = id then { t with is_deleted := true, updated_at := now } else t)
    { st with stored := updatedTabs,
              tabs := updatedTabs.filter (fun t => !t.is_deleted) }
  else st

/-- `moveTab(id, targetCollectionId)`: capacity check on the destination
(counting every tab whose `collection_id` already equals the target), then
delegate to `updateTab` with a `collection_id`/`order` patch. -/
def moveTab (now : String) (st : TabState) (id targetCollectionId : String) :
    (Except StoreErr Unit) × TabState :=
  match st.tabs.find? (fun t => t.id = id) with
  | none => (Except.error StoreErr.notFound, st)
  | some _tab =>
    let targetCollectionTabs := st.tabs.filter (fun t => t.collection_id = targetCollectionId)
    if MAX_TABS_PER_COLLECTION ≤ targetCollectionTabs.length then
      (Except.error StoreErr.capacityExceeded, st)
    else
      let r := updateTab now st id
        { collection_id := some targetCollectionId,
          order := some targetCollectionTabs.length }
      (r.1.map (fun _ => ()), r.2)

/-! ## Collection data model and store (`shared/stores/collection-store.ts`) -/

/-- `view_mode: 'list' | 'grid'`. -/
inductive ViewMode where
  | list
  | grid
  deriving DecidableEq, Repr

/-- A `Collection` record (`shared/types/collection.ts`). -/
structure Collection where
  id : String
  space_id : String
  name : String
  description : Option String := none
  icon : Option String := none
  color : Option String := none
  order : Nat
  view_mode : ViewMode
  created_at : String
  updated_at : String
  synced_at : Option String := none
  is_deleted : Bool := false
  deriving DecidableEq, Repr

/-- `CreateCollectionInput`. -/
structure CreateCollectionInput where
  space_id : String
  name : String
  description : Option String := none
  icon : Option String := none
  color : Option String := none
  deriving DecidableEq, Repr

/-- `UpdateCollectionInput`; outer `none` = key absent. -/
structure UpdateCollectionInput where
  name : Option String := none
  description : Option (Option String) := none
  icon : Option (Option String) := none
  color : Option (Option String) := none
  order : Option Nat := none
  view_mode : Option ViewMode := none
  deriving DecidableEq, Repr

/-- State of the collection store: persisted collection under
`STORAGE_KEYS.COLLECTIONS` plus the zustand fields. -/
structure CollectionState where
  stored : List Collection
  collections : List Collection
  isLoading : Bool := false
  error : Option String := none
  deriving DecidableEq, Repr

/-- JS `a || b` on an optional string: `undefined` and `''` are falsy. -/
def jsOrString (a : Option String) (b : String) : String :=
  match a with
  | none => b
  | some s => if s = "" then b else s

/-- `loadCollections` success path. -/
def loadCollections (st : CollectionState) : CollectionState :=
  { st with collections := st.stored.filter (fun c => !c.is_deleted),
            isLoading := false, error := none }

/-- `addCollection(input)`: `order` = count of same-space records in memory,
icon defaulted via `input.icon || '📁'`, `view_mode` always `'list'`. -/
def addCollection (newId now : String) (st : CollectionState) (input : CreateCollectionInput) :
    Collection × CollectionState :=
  let spaceCollections := st.collections.filter (fun c => c.space_id = input.space_id)
  let newCollection : Collection :=
    { id := newId
      space_id := input.space_id
      name := input.name
      description := input.description
      icon := some (jsOrString input.icon "📁")
      color := input.color
      order := spaceCollections.length
      view_mode := ViewMode.list
      created_at := now
      updated_at := now }
  let updatedCollections := st.collections ++ [newCollection]
  (newCollection, { st with stored := updatedCollections, collections := updatedCollections })

/-- Object-spread application of an `UpdateCollectionInput` patch. -/
def applyCollectionUpdate (c : Collection) (input : UpdateCollectionInput) (now : String) :
    Collection :=
  { c with
    name := input.name.getD c.name
    description := input.description.getD c.description
    icon := input.icon.getD c.icon
    color := input.color.getD c.color
    order := input.order.getD c.order
    view_mode := input.view_mode.getD c.view_mode
    updated_at := now }

/-- `updateCollection(id, input)`. -/
def updateCollection (now : String) (st : CollectionState) (id : String)
    (input : UpdateCollectionInput) : (Except StoreErr Collection) × CollectionState :=
  let index := st.collections.findIdx (fun c => c.id = id)
  if h : index < st.collections.length then
    let updatedCollection := applyCollectionUpdate (st.collections.get ⟨index, h⟩) input now
    let updatedCollections := st.collections.set index updatedCollection
    (Except.ok updatedCollection,
     { st with stored := updatedCollections, collections := updatedCollections })
  else
    (Except.error StoreErr.notFound, st)

/-- `deleteCollection(id)`: idempotent soft delete. -/
def deleteCollection (now : String) (st : CollectionState) (id : String) : CollectionState :=
  let index := st.collections.findIdx (fun c => c.id = id)
  if index < st.collections.length then
    let updatedCollections := st.collections.map
      (fun c => if c.id = id then { c with is_deleted := true, updated_at := now } else c)
    { st with stored := updatedCollections,
              collections := updatedCollections.filter (fun c => !c.is_deleted) }
  else st

/-! ## Space data model and store (`shared/stores/space-store.ts`) -/

/-- A `Space` record (`shared/types/space.ts`). -/
structure Space where
  id : String
  name : String
  description : Option String := none
  icon : Option String := none
  color : Option String := none
  order : Nat
  is_default : Bool := false
  created_at : String
  updated_at : String
  synced_at : Option String := none
  is_deleted : Bool := false
  deriving DecidableEq, Repr

/-- `CreateSpaceInput`. -/
structure CreateSpaceInput where
  name : String
  description : Option String := none
  icon : Option String := none
  color : Option String := none
  deriving DecidableEq, Repr

/-- `UpdateSpaceInput`; outer `none` = key absent. -/
structure UpdateSpaceInput where
  name : Option String := none
  description : Option (Option String) := none
  icon : Option (Option String) := none
  color : Option (Option String) := none
  order : Option Nat := none
  deriving DecidableEq, Repr

/-- State of the space store: persisted `SPACES` and `ACTIVE_SPACE_ID` keys
plus the zustand fields. -/
structure SpaceState where
  stored : List Space
  storedActiveSpaceId : Option String := none
  spaces : List Space
  activeSpaceId : Option String := none
  activeSpace : Option Space := none
  isLoading : Bool := false
  error : Option String := none
  deriving DecidableEq, Repr

/-- `loadSpaces` success path: publishes the filtered list; note that
`activeSpace` is resolved against the *unfiltered* stored list. -/
def loadSpaces (st : SpaceState) : SpaceState :=
  { st with spaces := st.stored.filter (fun s => !s.is_deleted),
            activeSpaceId := st.storedActiveSpaceId,
            activeSpace := match st.storedActiveSpaceId with
              | none => none
              | some aid => st.stored.find? (fun s => s.id = aid),
            isLoading := false, error := none }

/-- `setActiveSpace(id)`. -/
def setActiveSpace (st : SpaceState) (id : String) : SpaceState :=
  let space := st.spaces.find? (fun s => s.id = id)
  { st with storedActiveSpaceId := some id, activeSpaceId := some id, activeSpace := space }

/-- `addSpace(input)`: `order` = count of all in-memory spaces; the first
space auto-becomes active. -/
def addSpace (newId now : String) (st : SpaceState) (input : CreateSpaceInput) :
    Space × SpaceState :=
  let newSpace : Space :=
    { id := newId
      name := input.name
      description := input.description
      icon := some (jsOrString input.icon "📁")
      color := input.color
      order := st.spaces.length
      created_at := now
      updated_at := now }
  let updatedSpaces := st.spaces ++ [newSpace]
  let st1 := { st with stored := updatedSpaces, spaces := updatedSpaces }
  if updatedSpaces.length = 1 then (newSpace, setActiveSpace st1 newSpace.id)
  else (newSpace, st1)

/-- Object-spread application of an `UpdateSpaceInput` patch. -/
def applySpaceUpdate (s : Space) (input : UpdateSpaceInput) (now : String) : Space :=
  { s with
    name := input.name.getD s.name
    description := input.description.getD s.description
    icon := input.icon.getD s.icon
    color := input.color.getD s.color
    order := input.order.getD s.order
    updated_at := now }

/-- `updateSpace(id, input)`. -/
def updateSpace (now : String) (st : SpaceState) (id : String) (input : UpdateSpaceInput) :
    (Except StoreErr Space) × SpaceState :=
  let index := st.spaces.findIdx (fun s => s.id = id)
  if h : index < st.spaces.length then
    let updatedSpace := applySpaceUpdate (st.spaces.get ⟨index, h⟩) input now
    let updatedSpaces := st.spaces.set index updatedSpace
    (Except.ok updatedSpace,
     { st with stored := updatedSpaces, spaces := updatedSpaces,
               activeSpace := if st.activeSpaceId = some id then some updatedSpace
                              else st.activeSpace })
  else
    (Except.error StoreErr.notFound, st)

/-- `deleteSpace(id)`: idempotent soft delete; re-selects the first remaining
space when the active one was deleted. -/
def deleteSpace (now : String) (st : SpaceState) (id : String) : SpaceState :=
  let index := st.spaces.findIdx (fun s => s.id = id)
  if index < st.spaces.length then
    let updatedSpaces := st.spaces.map
      (fun s => if s.id = id then { s with is_deleted := true, updated_at := now } else s)
    let visibleSpaces := updatedSpaces.filter (fun s => !s.is_deleted)
    let st1 := { st with stored := updatedSpaces, spaces := visibleSpaces }
    if st.activeSpaceId = some id then
      match visibleSpaces.head? with
      | some nextSpace => setActiveSpace st1 nextSpace.id
      | none => { st1 with activeSpaceId := none, activeSpace := none }
    else st1
  else st

/-! ## Session manager (`shared/stores/auth-store.ts`) -/

/-- A `User` record (`shared/types/auth.ts`); only the fields, no logic. -/
structure User where
  uid : String
  username : String
  email : Option String := none
  display_name : Option String := none
  avatar_url : Option String := none
  status : String
  created_at : String
  deriving DecidableEq, Repr

/-- `AuthState` (`shared/types/auth.ts`): the session manager's state. -/
structure AuthState where
  user : Option User := none
  access_token : Option String := none
  token_expires_at : Option Nat := none
  is_authenticated : Bool := false
  is_loading : Bool := true
  deriving DecidableEq, Repr

/-- `isTokenExpired()`; `now` is `Date.now()` in milliseconds.
`if (!token_expires_at) return true` is a JS truthiness check, so a recorded
expiry of `0` also yields `true`; otherwise `Date.now() > token_expires_at`. -/
def isTokenExpired (st : AuthState) (now : Nat) : Bool :=
  match st.token_expires_at with
  | none => true
  | some t => if t = 0 then true else decide (t < now)

/-! ## Request gateway (`shared/api/client.ts`) -/

/-- `ApiError`: carries the HTTP status and the (parsed) payload. -/
structure ApiError where
  status : Nat
  data : String
  deriving DecidableEq, Repr

/-- An HTTP response as the gateway observes it: `ok`, `status`, and the
result of `response.json()` (`none` = the body failed to parse). -/
structure HttpResponse where
  ok : Bool
  status : Nat
  jsonBody : Option String := none
  deriving DecidableEq, Repr

deriving instance DecidableEq for Except

/-- Outcome of `ApiClient.request`, separating the two exits: `noFetch`
means an error was thrown *before* `fetch` was called; `fetched` records
the headers the network call was issued with and the post-fetch result. -/
inductive RequestResult where
  | noFetch (e : ApiError)
  | fetched (headers : List (String × String)) (r : Except ApiError String)
  deriving DecidableEq, Repr

/-- The post-`fetch` half of `request`: non-ok status throws a typed error
with the parsed body (empty object on parse failure); 204 yields `{}`
without parsing; otherwise the parsed body is returned. -/
def handleResponse (response : HttpResponse) : Except ApiError String :=
  if !response.ok then
    Except.error { status := response.status, data := response.jsonBody.getD "{}" }
  else if response.status = 204 then
    Except.ok "{}"
  else
    Except.ok (response.jsonBody.getD "")

/-- `ApiClient.request`: Content-Type header always set; when
`options.requiresAuth`, the gate `if (!access_token || isTokenExpired())`
throws `ApiError(401)` before `fetch`, otherwise the bearer header is
attached.  `!access_token` is a JS truthiness check, so the empty string
also fails the gate. -/
def request (auth : AuthState) (now : Nat) (requiresAuth : Bool)
    (response : HttpResponse) : RequestResult :=
  let headers := [("Content-Type", "application/json")]
  if requiresAuth then
    match auth.access_token with
    | none => RequestResult.noFetch { status := 401, data := "Not authenticated" }
    | some tok =>
      if tok = "" then
        RequestResult.noFetch { status := 401, data := "Not authenticated" }
      else if isTokenExpired auth now then
        RequestResult.noFetch { status := 401, data := "Not authenticated" }
      else
        RequestResult.fetched (headers ++ [("Authorization", "Bearer " ++ tok)])
          (handleResponse response)
  else
    RequestResult.fetched headers (handleResponse response)

/-! ## Signed request protocol (`shared/utils/signature.ts`)

`generateSignature` calls WebCrypto's HMAC-SHA-256
(`crypto.subtle.sign('HMAC', …)` with `hash: 'SHA-256'`); the primitive is
embedded here as an executable HMAC-SHA-256 (FIPS 180-4 / RFC 2104) over
byte lists, validated against the standard test vectors.  Bytes and 32-bit
words are `Nat` with explicit `% 2^w` reductions. -/

/-- Truncation to a 32-bit word. -/
def w32 (x : Nat) : Nat := x % 4294967296

/-- 32-bit right rotation (callers keep `x < 2^32`). -/
def rotr (n x : Nat) : Nat := w32 ((x >>> n) ||| (x <<< (32 - n)))

def bigSigma0 (x : Nat) : Nat := rotr 2 x ^^^ rotr 13 x ^^^ rotr 22 x
def bigSigma1 (x : Nat) : Nat := rotr 6 x ^^^ rotr 11 x ^^^ rotr 25 x
def smallSigma0 (x : Nat) : Nat := rotr 7 x ^^^ rotr 18 x ^^^ (x >>> 3)
def smallSigma1 (x : Nat) : Nat := rotr 17 x ^^^ rotr 19 x ^^^ (x >>> 10)
def chFn (x y z : Nat) : Nat := (x &&& y) ^^^ ((x ^^^ 4294967295) &&& z)
def majFn (x y z : Nat) : Nat := (x &&& y) ^^^ (x &&& z) ^^^ (y &&& z)

/-- The SHA-256 round constants (fractional parts of the cube roots of the
first 64 primes). -/
def roundK : List Nat :=
  [1116352408, 1899447441, 3049323471, 3921009573,
   961987163, 1508970993, 2453635748, 2870763221,
   3624381080, 310598401, 607225278, 1426881987,
   1925078388, 2162078206, 2614888103, 3248222580,
   3835390401, 4022224774, 264347078, 604807628,
   770255983, 1249150122, 1555081692, 1996064986,
   2554220882, 2821834349, 2952996808, 3210313671,
   3336571891, 3584528711, 113926993, 338241895,
   666307205, 773529912, 1294757372, 1396182291,
   1695183700, 1986661051, 2177026350, 2456956037,
   2730485921, 2820302411, 3259730800, 3345764771,
   3516065817, 3600352804, 4094571909, 275423344,
   430227734, 506948616, 659060556, 883997877,
   958139571, 1322822218, 1537002063, 1747873779,
   1955562222, 2024104815, 2227730452, 2361852424,
   2428436474, 2756734187, 3204031479, 3329325298]

/-- The eight working variables of the SHA-256 compression function. -/
structure Hash8 where
  a : Nat
  b : Nat
  c : Nat
  d : Nat
  e : Nat
  f : Nat
  g : Nat
  h : Nat
  deriving DecidableEq, Repr

/-- The SHA-256 initial hash value. -/
def initH : Hash8 :=
  ⟨1779033703, 3144134277, 1013904242, 2773480762, 1359893119, 2600822924, 528734635, 1541459225⟩

/-- Extend a 16-word block to the 64-word message schedule (fuel = 48). -/
def extendSchedule : List Nat → Nat → List Nat
  | ws, 0 => ws
  | ws, fuel + 1 =>
      let n := ws.length
      let w := w32 (smallSigma1 (ws.getD (n - 2) 0) + ws.getD (n - 7) 0 +
                    smallSigma0 (ws.getD (n - 15) 0) + ws.getD (n - 16) 0)
      extendSchedule (ws ++ [w]) fuel

/-- One SHA-256 round; `kw` is the pair of round constant and schedule word. -/
def compressWord (st : Hash8) (kw : Nat × Nat) : Hash8 :=
  let t1 := w32 (st.h + bigSigma1 st.e + chFn st.e st.f st.g + kw.1 + kw.2)
  let t2 := w32 (bigSigma0 st.a + majFn st.a st.b st.c)
  ⟨w32 (t1 + t2), st.a, st.b, st.c, w32 (st.d + t1), st.e, st.f, st.g⟩

/-- Compress one 16-word block into the running hash. -/
def compressBlock (h0 : Hash8) (blockWords : List Nat) : Hash8 :=
  let ws := extendSchedule blockWords 48
  let st := (roundK.zip ws).foldl compressWord h0
  ⟨w32 (h0.a + st.a), w32 (h0.b + st.b), w32 (h0.c + st.c), w32 (h0.d + st.d),
   w32 (h0.e + st.e), w32 (h0.f + st.f), w32 (h0.g + st.g), w32 (h0.h + st.h)⟩

/-- A `Nat` as 8 big-endian bytes (the 64-bit message length field). -/
def be64 (n : Nat) : List Nat :=
  [n >>> 56 % 256, n >>> 48 % 256, n >>> 40 % 256, n >>> 32 % 256,
   n >>> 24 % 256, n >>> 16 % 256, n >>> 8 % 256, n % 256]

/-- SHA-256 padding: `0x80`, zeros to 56 mod 64, then the bit length. -/
def padMessage (msg : List Nat) : List Nat :=
  let len := msg.length
  msg ++ 128 :: List.replicate ((119 - len % 64) % 64) 0 ++ be64 (8 * len)

/-- Split a byte list into 64-byte blocks (fuel-driven structural recursion). -/
def splitBlocks : Nat → List Nat → List (List Nat)
  | 0, _ => []
  | _, [] => []
  | fuel + 1, l => l.take 64 :: splitBlocks fuel (l.drop 64)

/-- Group bytes into big-endian 32-bit words. -/
def bytesToWords : List Nat → List Nat
  | b0 :: b1 :: b2 :: b3 :: rest =>
      (b0 <<< 24 ||| b1 <<< 16 ||| b2 <<< 8 ||| b3) :: bytesToWords rest
  | _ => []

/-- A 32-bit word as 4 big-endian bytes. -/
def wordBytes (w : Nat) : List Nat := [w >>> 24 % 256, w >>> 16 % 256, w >>> 8 % 256, w % 256]

/-- The 32 digest bytes of a final hash state, big-endian word by word. -/
def hashBytes (h : Hash8) : List Nat :=
  wordBytes h.a ++ wordBytes h.b ++ wordBytes h.c ++ wordBytes h.d ++
  wordBytes h.e ++ wordBytes h.f ++ wordBytes h.g ++ wordBytes h.h

/-- SHA-256 of a byte list, as the 32 digest bytes. -/
def sha256 (msg : List Nat) : List Nat :=
  let padded := padMessage msg
  let blocks := splitBlocks padded.length padded
  hashBytes (blocks.foldl (fun h b => compressBlock h (bytesToWords b)) initH)

/-- HMAC-SHA-256 (RFC 2104; block size 64 bytes). -/
def hmacSha256 (key msg : List Nat) : List Nat :=
  let k0 := if 64 < key.length then sha256 key else key
  let kFull := k0 ++ List.replicate (64 - k0.length) 0
  let ipadKey := kFull.map (fun b => b ^^^ 54)
  let opadKey := kFull.map (fun b => b ^^^ 92)
  sha256 (opadKey ++ sha256 (ipadKey ++ msg))

/-- UTF-8 encoding of one scalar value (what `TextEncoder` does per char). -/
def utf8EncodeChar (c : Char) : List Nat :=
  let n := c.toNat
  if n < 128 then [n]
  else if n < 2048 then [192 + n / 64, 128 + n % 64]
  else if n < 65536 then [224 + n / 4096, 128 + (n / 64) % 64, 128 + n % 64]
  else [240 + n / 262144, 128 + (n / 4096) % 64, 128 + (n / 64) % 64, 128 + n % 64]

/-- `new TextEncoder().encode(s)`. -/
def utf8Bytes (s : String) : List Nat := s.data.flatMap utf8EncodeChar

/-- `b.toString(16).padStart(2, '0')` for a byte value: `Nat.toDigits 16`
produces the same lowercase digits as JS `toString(16)`, and `padStart`
prefixes `'0'` when only one digit came out. -/
def jsHexByte (b : Nat) : String :=
  let s := (Nat.toDigits 16 b).asString
  if s.length < 2 then "0" ++ s else s

/-- `generateSignature(email, nonce, authAt, purpose)`: the canonical string
`` `${email}:${nonce}:${authAt}:${purpose}` ``, HMAC-SHA-256 under the
configured secret, rendered as the concatenation of the per-byte
`toString(16).padStart(2, '0')` pieces.  The shared secret
(`VITE_SIGNATURE_SECRET`, defaulted) is external configuration and is
passed as a parameter. -/
def generateSignature (secret email nonce : String) (authAt : Nat) (purpose : String) : String :=
  let message := email ++ ":" ++ nonce ++ ":" ++ Nat.repr authAt ++ ":" ++ purpose
  let keyData := utf8Bytes secret
  let messageData := utf8Bytes message
  let signature := hmacSha256 keyData messageData
  String.join (signature.map jsHexByte)

/-! Spec-side rendering of the C8 claim, written from the spec's words: the
lowercase hexadecimal encoding of HMAC-SHA-256 of the canonical
`email:nonce:authAt:purpose` string under the shared secret. -/

/-- The sixteen lowercase hexadecimal digits, indexed by value. -/
def hexDigitLower (n : Nat) : Char := "0123456789abcdef".data.getD n 'x'

/-- A byte as exactly two lowercase hexadecimal digits. -/
def hexByteLower (b : Nat) : String := String.mk [hexDigitLower (b / 16), hexDigitLower (b % 16)]

/-- Lowercase hexadecimal encoding of a byte list. -/
def lowercaseHex (bytes : List Nat) : String := String.join (bytes.map hexByteLower)

/-- The canonical string: email, nonce, decimal `authAt`, purpose joined by
`':'` separators. -/
def canonicalString (email nonce : String) (authAt : Nat) (purpose : String) : String :=
  email ++ ":" ++ nonce ++ ":" ++ Nat.repr authAt ++ ":" ++ purpose

/-- The signature as the spec describes it. -/
def signatureSpec (secret email nonce : String) (authAt : Nat) (purpose : String) : String :=
  lowercaseHex (hmacSha256 (utf8Bytes secret) (utf8Bytes (canonicalString email nonce authAt purpose)))

/-! ## General list helper lemmas -/

theorem findIdx_lt_length_iff {α} (p : α → Bool) (l : List α) :
    l.findIdx p < l.length ↔ ∃ x ∈ l, p x := by
  constructor
  · intro h
    exact ⟨l.get ⟨l.findIdx p, h⟩, List.get_mem l _ h, List.findIdx_get⟩
  · exact List.findIdx_lt_length_of_exists

theorem find?_eq_get_findIdx {α} (p : α → Bool) (l : List α)
    (h : l.findIdx p < l.length) :
    l.find? p = some (l.get ⟨l.findIdx p, h⟩) := by
  induction l with
  | nil => simp at h
  | cons a t ih =>
    by_cases hpa : p a
    · simp [List.find?_cons, hpa, List.findIdx_cons]
    · have hidx : (a :: t).findIdx p = t.findIdx p + 1 := by
        simp [List.findIdx_cons, hpa]
      have h' : t.findIdx p < t.length := by
        have h2 := h; rw [hidx] at h2; exact Nat.lt_of_succ_lt_succ h2
      have hfind : List.find? p (a :: t) = List.find? p t := by
        simp [List.find?_cons, hpa]
      have hfin : (⟨(a :: t).findIdx p, h⟩ : Fin (a :: t).length) =
          ⟨t.findIdx p + 1, by simpa using Nat.succ_lt_succ h'⟩ := by
        apply Fin.ext; simpa using hidx
      rw [hfind, ih h', hfin]
      rfl

theorem get_findIdx_key_eq {α β} [DecidableEq β] (f : α → β) {l : List α}
    (hn : (l.map f).Nodup) {x : α} (hx : x ∈ l)
    (h : l.findIdx (fun t => f t = f x) < l.length) :
    l.get ⟨l.findIdx (fun t => f t = f x), h⟩ = x := by
  have h1 : l.get ⟨l.findIdx (fun t => f t = f x), h⟩ ∈ l := List.get_mem l _ h
  have h2 : f (l.get ⟨l.findIdx (fun t => f t = f x), h⟩) = f x := by
    have := List.findIdx_get (w := h)
    simpa using this
  exact List.inj_on_of_nodup_map hn h1 hx h2

theorem length_filter_set {α} (p : α → Bool) (l : List α) (i : Nat) (x : α)
    (hi : i < l.length) (hp : p x = p (l.get ⟨i, hi⟩)) :
    ((l.set i x).filter p).length = (l.filter p).length := by
  rw [← List.countP_eq_length_filter, ← List.countP_eq_length_filter,
      List.countP_set p l i x hi]
  have hgl : l[i] = l.get ⟨i, hi⟩ := rfl
  rw [hgl, hp]
  by_cases hpl : p (l.get ⟨i, hi⟩) = true
  · have hpos : 0 < l.countP p :=
      List.countP_pos_iff.mpr ⟨l.get ⟨i, hi⟩, List.get_mem l _ hi, hpl⟩
    simp only [if_pos hpl]
    omega
  · simp only [if_neg hpl]
    omega

theorem map_set_key_eq {α β} (f : α → β) (l : List α) (i : Nat) (x : α)
    (hi : i < l.length) (hf : f x = f (l.get ⟨i, hi⟩)) :
    (l.set i x).map f = l.map f := by
  rw [List.map_set]
  apply List.ext_getElem (by simp)
  intro n h1 h2
  rw [List.getElem_set]
  split
  · next hin => subst hin; simpa using hf
  · rfl

/-! ## Branch characterizations of the store operations -/

theorem updateTab_found (now : String) (st : TabState) (id : String) (input : UpdateTabInput)
    (h : st.tabs.findIdx (fun t => t.id = id) < st.tabs.length) :
    updateTab now st id input =
      (Except.ok (applyTabUpdate (st.tabs.get ⟨st.tabs.findIdx (fun t => t.id = id), h⟩) input now),
       { st with
         stored := st.tabs.set (st.tabs.findIdx (fun t => t.id = id))
           (applyTabUpdate (st.tabs.get ⟨st.tabs.findIdx (fun t => t.id = id), h⟩) input now),
         tabs := st.tabs.set (st.tabs.findIdx (fun t => t.id = id))
           (applyTabUpdate (st.tabs.get ⟨st.tabs.findIdx (fun t => t.id = id), h⟩) input now) }) := by
  unfold updateTab
  rw [dif_pos h]

theorem updateTab_not_found (now : String) (st : TabState) (id : String) (input : UpdateTabInput)
    (h : ¬ st.tabs.findIdx (fun t => t.id = id) < st.tabs.length) :
    updateTab now st id input = (Except.error StoreErr.notFound, st) := by
  unfold updateTab
  rw [dif_neg h]

theorem addTab_capacity (newId now : String) (st : TabState) (input : CreateTabInput)
    (h : MAX_TABS_PER_COLLECTION ≤
        (st.tabs.filter (fun t => t.collection_id = input.collection_id)).length) :
    addTab newId now st input = (Except.error StoreErr.capacityExceeded, st) := by
  unfold addTab
  rw [if_pos h]

theorem addTab_merge (newId now : String) (st : TabState) (input : CreateTabInput) (ex : Tab)
    (hlt : ¬ MAX_TABS_PER_COLLECTION ≤
        (st.tabs.filter (fun t => t.collection_id = input.collection_id)).length)
    (hfind : (st.tabs.filter (fun t => t.collection_id = input.collection_id)).find?
        (fun t => t.url = input.url) = some ex) :
    addTab newId now st input =
      updateTab now st ex.id { title := some input.title, favicon := some input.favicon } := by
  unfold addTab
  rw [if_neg hlt, hfind]

theorem addTab_fresh (newId now : String) (st : TabState) (input : CreateTabInput)
    (hlt : ¬ MAX_TABS_PER_COLLECTION ≤
        (st.tabs.filter (fun t => t.collection_id = input.collection_id)).length)
    (hfind : (st.tabs.filter (fun t => t.collection_id = input.collection_id)).find?
        (fun t => t.url = input.url) = none) :
    addTab newId now st input =
      (Except.ok
        { id := newId
          collection_id := input.collection_id
          title := input.title
          url := input.url
          favicon := input.favicon
          description := input.description
          order := (st.tabs.filter (fun t => t.collection_id = input.collection_id)).length
          tags := input.tags
          created_at := now
          updated_at := now },
       { st with
         stored := st.tabs ++
           [{ id := newId
              collection_id := input.collection_id
              title := input.title
              url := input.url
              favicon := input.favicon
              description := input.description
              order := (st.tabs.filter (fun t => t.collection_id = input.collection_id)).length
              tags := input.tags
              created_at := now
              updated_at := now }]
         tabs := st.tabs ++
           [{ id := newId
              collection_id := input.collection_id
              title := input.title
              url := input.url
              favicon := input.favicon
              description := input.description
              order := (st.tabs.filter (fun t => t.collection_id = input.collection_id)).length
              tags := input.tags
              created_at := now
              updated_at := now }] }) := by
  unfold addTab
  rw [if_neg hlt, hfind]

theorem deleteTab_found (now : String) (st : TabState) (id : String)
    (h : st.tabs.findIdx (fun t => t.id = id) < st.tabs.length) :
    deleteTab now st id =
      { st with
        stored := st.tabs.map
          (fun t => if t.id = id then { t with is_deleted := true, updated_at := now } else t),
        tabs := (st.tabs.map
          (fun t => if t.id = id then { t with is_deleted := true, updated_at := now } else t)).filter
            (fun t => !t.is_deleted) } := by
  unfold deleteTab
  rw [if_pos h]

theorem deleteTab_not_found (now : String) (st : TabState) (id : String)
    (h : ¬ st.tabs.findIdx (fun t => t.id = id) < st.tabs.length) :
    deleteTab now st id = st := by
  unfold deleteTab
  rw [if_neg h]

theorem moveTab_not_found (now : String) (st : TabState) (id target : String)
    (h : st.tabs.find? (fun t => t.id = id) = none) :
    moveTab now st id target = (Except.error StoreErr.notFound, st) := by
  unfold moveTab
  rw [h]

theorem moveTab_capacity (now : String) (st : TabState) (id target : String) (tab : Tab)
    (hfound : st.tabs.find? (fun t => t.id = id) = some tab)
    (h : MAX_TABS_PER_COLLECTION ≤
        (st.tabs.filter (fun t => t.collection_id = target)).length) :
    moveTab now st id target = (Except.error StoreErr.capacityExceeded, st) := by
  unfold moveTab
  rw [hfound]
  simp only [if_pos h]

theorem moveTab_ok (now : String) (st : TabState) (id target : String) (tab : Tab)
    (hfound : st.tabs.find? (fun t => t.id = id) = some tab)
    (h : ¬ MAX_TABS_PER_COLLECTION ≤
        (st.tabs.filter (fun t => t.collection_id = target)).length) :
    moveTab now st id target =
      ((updateTab now st id
          { collection_id := some target,
            order := some (st.tabs.filter (fun t => t.collection_id = target)).length }).1.map
         (fun _ => ()),
       (updateTab now st id
          { collection_id := some target,
            order := some (st.tabs.filter (fun t => t.collection_id = target)).length }).2) := by
  unfold moveTab
  rw [hfound]
  simp only [if_neg h]

/-! ## Reachable store states and the no-tombstone invariant -/

/-- The published tab list holds no tombstone. -/
def TabsClean (st : TabState) : Prop := ∀ t ∈ st.tabs, t.is_deleted = false

/-- The published collection list holds no tombstone. -/
def CollectionsClean (st : CollectionState) : Prop := ∀ c ∈ st.collections, c.is_deleted = false

/-- The published space list holds no tombstone. -/
def SpacesClean (st : SpaceState) : Prop := ∀ s ∈ st.spaces, s.is_deleted = false

instance (st : TabState) : Decidable (TabsClean st) := by
  unfold TabsClean; infer_instance

instance (st : CollectionState) : Decidable (CollectionsClean st) := by
  unfold CollectionsClean; infer_instance

instance (st : SpaceState) : Decidable (SpacesClean st) := by
  unfold SpacesClean; infer_instance

/-- States of the tab store reachable from store creation (`tabs: []`, any
persisted contents) through its actions. -/
inductive TabReachable : TabState → Prop where
  | init (stored : List Tab) : TabReachable { stored := stored, tabs := [] }
  | load {st : TabState} : TabReachable st → TabReachable (loadTabs st)
  | loadFail {st : TabState} : TabReachable st → TabReachable (loadTabsFailure st)
  | add {st : TabState} (newId now : String) (input : CreateTabInput) :
      TabReachable st → TabReachable (addTab newId now st input).2
  | update {st : TabState} (now id : String) (input : UpdateTabInput) :
      TabReachable st → TabReachable (updateTab now st id input).2
  | del {st : TabState} (now id : String) :
      TabReachable st → TabReachable (deleteTab now st id)
  | move {st : TabState} (now id target : String) :
      TabReachable st → TabReachable (moveTab now st id target).2

/-- States of the collection store reachable through its actions. -/
inductive CollectionReachable : CollectionState → Prop where
  | init (stored : List Collection) : CollectionReachable { stored := stored, collections := [] }
  | load {st : CollectionState} : CollectionReachable st → CollectionReachable (loadCollections st)
  | add {st : CollectionState} (newId now : String) (input : CreateCollectionInput) :
      CollectionReachable st → CollectionReachable (addCollection newId now st input).2
  | update {st : CollectionState} (now id : String) (input : UpdateCollectionInput) :
      CollectionReachable st → CollectionReachable (updateCollection now st id input).2
  | del {st : CollectionState} (now id : String) :
      CollectionReachable st → CollectionReachable (deleteCollection now st id)

/-- States of the space store reachable through its actions. -/
inductive SpaceReachable : SpaceState → Prop where
  | init (stored : List Space) (aid : Option String) :
      SpaceReachable { stored := stored, storedActiveSpaceId := aid, spaces := [] }
  | load {st : SpaceState} : SpaceReachable st → SpaceReachable (loadSpaces st)
  | add {st : SpaceState} (newId now : String) (input : CreateSpaceInput) :
      SpaceReachable st → SpaceReachable (addSpace newId now st input).2
  | update {st : SpaceState} (now id : String) (input : UpdateSpaceInput) :
      SpaceReachable st → SpaceReachable (updateSpace now st id input).2
  | del {st : SpaceState} (now id : String) :
      SpaceReachable st → SpaceReachable (deleteSpace now st id)
  | setActive {st : SpaceState} (id : String) :
      SpaceReachable st → SpaceReachable (setActiveSpace st id)

theorem applyTabUpdate_is_deleted (t : Tab) (input : UpdateTabInput) (now : String) :
    (applyTabUpdate t input now).is_deleted = t.is_deleted := rfl

theorem updateTab_clean {st : TabState} (now id : String) (input : UpdateTabInput)
    (h : TabsClean st) : TabsClean (updateTab now st id input).2 := by
  by_cases hlt : st.tabs.findIdx (fun t => t.id = id) < st.tabs.length
  · rw [updateTab_found now st id input hlt]
    intro t ht
    rcases List.mem_or_eq_of_mem_set ht with h1 | h1
    · exact h t h1
    · rw [h1, applyTabUpdate_is_deleted]
      exact h _ (List.get_mem st.tabs _ hlt)
  · rw [updateTab_not_found now st id input hlt]
    exact h

theorem addTab_clean {st : TabState} (newId now : String) (input : CreateTabInput)
    (h : TabsClean st) : TabsClean (addTab newId now st input).2 := by
  by_cases hcap : MAX_TABS_PER_COLLECTION ≤
      (st.tabs.filter (fun t => t.collection_id = input.collection_id)).length
  · rw [addTab_capacity newId now st input hcap]
    exact h
  · cases hfind : (st.tabs.filter (fun t => t.collection_id = input.collection_id)).find?
        (fun t => t.url = input.url) with
    | some ex =>
      rw [addTab_merge newId now st input ex hcap hfind]
      exact updateTab_clean now ex.id _ h
    | none =>
      rw [addTab_fresh newId now st input hcap hfind]
      intro t ht
      rcases List.mem_append.mp ht with h1 | h1
      · exact h t h1
      · rw [List.mem_singleton.mp h1]

theorem deleteTab_clean {st : TabState} (now id : String)
    (h : TabsClean st) : TabsClean (deleteTab now st id) := by
  by_cases hlt : st.tabs.findIdx (fun t => t.id = id) < st.tabs.length
  · rw [deleteTab_found now st id hlt]
    intro t ht
    have := (List.mem_filter.mp ht).2
    simpa using this
  · rw [deleteTab_not_found now st id hlt]
    exact h

theorem moveTab_clean {st : TabState} (now id target : String)
    (h : TabsClean st) : TabsClean (moveTab now st id target).2 := by
  cases hfound : st.tabs.find? (fun t => t.id = id) with
  | none =>
    rw [moveTab_not_found now st id target hfound]
    exact h
  | some tab =>
    by_cases hcap : MAX_TABS_PER_COLLECTION ≤
        (st.tabs.filter (fun t => t.collection_id = target)).length
    · rw [moveTab_capacity now st id target tab hfound hcap]
      exact h
    · rw [moveTab_ok now st id target tab hfound hcap]
      exact updateTab_clean now id _ h

theorem loadTabs_clean (st : TabState) : TabsClean (loadTabs st) := by
  intro t ht
  have := (List.mem_filter.mp ht).2
  simpa using this

theorem tabReachable_clean {st : TabState} (h : TabReachable st) : TabsClean st := by
  induction h with
  | init stored => intro t ht; simp at ht
  | load _ => exact loadTabs_clean _
  | loadFail _ ih => exact ih
  | add newId now input _ ih => exact addTab_clean newId now input ih
  | update now id input _ ih => exact updateTab_clean now id input ih
  | del now id _ ih => exact deleteTab_clean now id ih
  | move now id target _ ih => exact moveTab_clean now id target ih

theorem updateCollection_found (now : String) (st : CollectionState) (id : String)
    (input : UpdateCollectionInput)
    (h : st.collections.findIdx (fun c => c.id = id) < st.collections.length) :
    updateCollection now st id input =
      (Except.ok (applyCollectionUpdate
          (st.collections.get ⟨st.collections.findIdx (fun c => c.id = id), h⟩) input now),
       { st with
         stored := st.collections.set (st.collections.findIdx (fun c => c.id = id))
           (applyCollectionUpdate
             (st.collections.get ⟨st.collections.findIdx (fun c => c.id = id), h⟩) input now),
         collections := st.collections.set (st.collections.findIdx (fun c => c.id = id))
           (applyCollectionUpdate
             (st.collections.get ⟨st.collections.findIdx (fun c => c.id = id), h⟩) input now) }) := by
  unfold updateCollection
  rw [dif_pos h]

theorem updateCollection_not_found (now : String) (st : CollectionState) (id : String)
    (input : UpdateCollectionInput)
    (h : ¬ st.collections.findIdx (fun c => c.id = id) < st.collections.length) :
    updateCollection now st id input = (Except.error StoreErr.notFound, st) := by
  unfold updateCollection
  rw [dif_neg h]

theorem updateSpace_found (now : String) (st : SpaceState) (id : String)
    (input : UpdateSpaceInput)
    (h : st.spaces.findIdx (fun s => s.id = id) < st.spaces.length) :
    updateSpace now st id input =
      (Except.ok (applySpaceUpdate
          (st.spaces.get ⟨st.spaces.findIdx (fun s => s.id = id), h⟩) input now),
       { st with
         stored := st.spaces.set (st.spaces.findIdx (fun s => s.id = id))
           (applySpaceUpdate (st.spaces.get ⟨st.spaces.findIdx (fun s => s.id = id), h⟩) input now),
         spaces := st.spaces.set (st.spaces.findIdx (fun s => s.id = id))
           (applySpaceUpdate (st.spaces.get ⟨st.spaces.findIdx (fun s => s.id = id), h⟩) input now),
         activeSpace := if st.activeSpaceId = some id then
             some (applySpaceUpdate
               (st.spaces.get ⟨st.spaces.findIdx (fun s => s.id = id), h⟩) input now)
           else st.activeSpace }) := by
  unfold updateSpace
  rw [dif_pos h]

theorem updateSpace_not_found (now : String) (st : SpaceState) (id : String)
    (input : UpdateSpaceInput)
    (h : ¬ st.spaces.findIdx (fun s => s.id = id) < st.spaces.length) :
    updateSpace now st id input = (Except.error StoreErr.notFound, st) := by
  unfold updateSpace
  rw [dif_neg h]

theorem applyCollectionUpdate_is_deleted (c : Collection) (input : UpdateCollectionInput)
    (now : String) : (applyCollectionUpdate c input now).is_deleted = c.is_deleted := rfl

theorem applySpaceUpdate_is_deleted (s : Space) (input : UpdateSpaceInput) (now : String) :
    (applySpaceUpdate s input now).is_deleted = s.is_deleted := rfl

theorem updateCollection_clean {st : CollectionState} (now id : String)
    (input : UpdateCollectionInput) (h : CollectionsClean st) :
    CollectionsClean (updateCollection now st id input).2 := by
  by_cases hlt : st.collections.findIdx (fun c => c.id = id) < st.collections.length
  · rw [updateCollection_found now st id input hlt]
    intro c hc
    rcases List.mem_or_eq_of_mem_set hc with h1 | h1
    · exact h c h1
    · rw [h1, applyCollectionUpdate_is_deleted]
      exact h _ (List.get_mem st.collections _ hlt)
  · rw [updateCollection_not_found now st id input hlt]
    exact h

theorem addCollection_clean {st : CollectionState} (newId now : String)
    (input : CreateCollectionInput) (h : CollectionsClean st) :
    CollectionsClean (addCollection newId now st input).2 := by
  intro c hc
  rcases List.mem_append.mp hc with h1 | h1
  · exact h c h1
  · rw [List.mem_singleton.mp h1]

theorem deleteCollection_clean {st : CollectionState} (now id : String)
    (h : CollectionsClean st) : CollectionsClean (deleteCollection now st id) := by
  by_cases hlt : st.collections.findIdx (fun c => c.id = id) < st.collections.length
  · simp only [deleteCollection]
    rw [if_pos hlt]
    intro c hc
    have := (List.mem_filter.mp hc).2
    simpa using this
  · simp only [deleteCollection]
    rw [if_neg hlt]
    exact h

theorem loadCollections_clean (st : CollectionState) : CollectionsClean (loadCollections st) := by
  intro c hc
  have := (List.mem_filter.mp hc).2
  simpa using this

theorem collectionReachable_clean {st : CollectionState} (h : CollectionReachable st) :
    CollectionsClean st := by
  induction h with
  | init stored => intro c hc; simp at hc
  | load _ => exact loadCollections_clean _
  | add newId now input _ ih => exact addCollection_clean newId now input ih
  | update now id input _ ih => exact updateCollection_clean now id input ih
  | del now id _ ih => exact deleteCollection_clean now id ih

theorem setActiveSpace_spaces (st : SpaceState) (id : String) :
    (setActiveSpace st id).spaces = st.spaces := rfl

theorem addSpace_clean {st : SpaceState} (newId now : String) (input : CreateSpaceInput)
    (h : SpacesClean st) : SpacesClean (addSpace newId now st input).2 := by
  have hbase : ∀ s ∈ st.spaces ++ [
      ({ id := newId, name := input.name, description := input.description,
         icon := some (jsOrString input.icon "📁"), color := input.color,
         order := st.spaces.length, created_at := now, updated_at := now } : Space)],
      s.is_deleted = false := by
    intro s hs
    rcases List.mem_append.mp hs with h1 | h1
    · exact h s h1
    · rw [List.mem_singleton.mp h1]
  simp only [addSpace]
  split
  · intro s hs
    rw [setActiveSpace_spaces] at hs
    exact hbase s hs
  · intro s hs
    exact hbase s hs

theorem updateSpace_clean {st : SpaceState} (now id : String) (input : UpdateSpaceInput)
    (h : SpacesClean st) : SpacesClean (updateSpace now st id input).2 := by
  by_cases hlt : st.spaces.findIdx (fun s => s.id = id) < st.spaces.length
  · rw [updateSpace_found now st id input hlt]
    intro s hs
    rcases List.mem_or_eq_of_mem_set hs with h1 | h1
    · exact h s h1
    · rw [h1, applySpaceUpdate_is_deleted]
      exact h _ (List.get_mem st.spaces _ hlt)
  · rw [updateSpace_not_found now st id input hlt]
    exact h

theorem deleteSpace_clean {st : SpaceState} (now id : String)
    (h : SpacesClean st) : SpacesClean (deleteSpace now st id) := by
  have hfiltered : ∀ (l : List Space), ∀ s ∈ l.filter (fun x => !x.is_deleted),
      s.is_deleted = false := by
    intro l s hs
    have := (List.mem_filter.mp hs).2
    simpa using this
  by_cases hlt : st.spaces.findIdx (fun s => s.id = id) < st.spaces.length
  · simp only [deleteSpace]
    rw [if_pos hlt]
    split
    · split
      · intro s hs
        rw [setActiveSpace_spaces] at hs
        exact hfiltered _ s hs
      · intro s hs
        exact hfiltered _ s hs
    · intro s hs
      exact hfiltered _ s hs
  · simp only [deleteSpace]
    rw [if_neg hlt]
    exact h

theorem loadSpaces_clean (st : SpaceState) : SpacesClean (loadSpaces st) := by
  intro s hs
  have := (List.mem_filter.mp hs).2
  simpa using this

theorem setActiveSpace_clean {st : SpaceState} (id : String)
    (h : SpacesClean st) : SpacesClean (setActiveSpace st id) := by
  intro s hs
  rw [setActiveSpace_spaces] at hs
  exact h s hs

theorem spaceReachable_clean {st : SpaceState} (h : SpaceReachable st) : SpacesClean st := by
  induction h with
  | init stored aid => intro s hs; simp at hs
  | load _ => exact loadSpaces_clean _
  | add newId now input _ ih => exact addSpace_clean newId now input ih
  | update now id input _ ih => exact updateSpace_clean now id input ih
  | del now id _ ih => exact deleteSpace_clean now id ih
  | setActive id _ ih => exact setActiveSpace_clean id ih

/-! ## Claim C2 — `isTokenExpired` boundary -/

/-- An auth state whose recorded expiry is the instant 5. -/
def c2State : AuthState := { token_expires_at := some 5 }

/-- C2 counterexample: at `now = 5` an expiry instant of exactly 5 is
recorded (so "expiry ≤ now" holds), yet `isTokenExpired` returns `false` —
the code compares with strict `Date.now() > token_expires_at`, so the claim's
inclusive boundary ("returns true when the recorded expiry equals the current
time exactly") is false. -/
theorem isTokenExpired_at_boundary_counterexample :
    c2State.token_expires_at = some 5 ∧ 5 ≤ 5 ∧ isTokenExpired c2State 5 = false := by
  decide

/-- C2 (amended): for any positive current time, `isTokenExpired()` returns
true if and only if no expiry instant is recorded or the recorded expiry
instant is strictly less than the current time; at expiry = now it returns
`false`. -/
theorem isTokenExpired_iff_strictly_past (st : AuthState) (now : Nat) (hnow : 0 < now) :
    (isTokenExpired st now = true ↔
      (st.token_expires_at = none ∨ ∃ t, st.token_expires_at = some t ∧ t < now)) ∧
    (st.token_expires_at = some now → isTokenExpired st now = false) := by
  constructor
  · cases hexp : st.token_expires_at with
    | none => simp [isTokenExpired, hexp]
    | some t =>
      by_cases h0 : t = 0
      · subst h0
        simp only [isTokenExpired, hexp, if_pos rfl]
        constructor
        · intro _; exact Or.inr ⟨0, rfl, hnow⟩
        · intro _; rfl
      · simp [isTokenExpired, hexp, h0]
  · intro hexp
    simp only [isTokenExpired, hexp]
    have hne : now ≠ 0 := Nat.pos_iff_ne_zero.mp hnow
    rw [if_neg hne]
    simp

/-- Witness for C2 at the concrete state `expiry = 3`, `now = 7`. -/
theorem isTokenExpired_iff_strictly_past_witness :
    0 < 7 ∧
    ((isTokenExpired { token_expires_at := some 3 } 7 = true ↔
        (({ token_expires_at := some 3 } : AuthState).token_expires_at = none ∨
          ∃ t, ({ token_expires_at := some 3 } : AuthState).token_expires_at = some t ∧ t < 7)) ∧
      (({ token_expires_at := some 3 } : AuthState).token_expires_at = some 7 →
        isTokenExpired { token_expires_at := some 3 } 7 = false)) :=
  ⟨by decide, isTokenExpired_iff_strictly_past { token_expires_at := some 3 } 7 (by decide)⟩

/-! ## Claim C9 — published lists never contain tombstones -/

/-- C9: in every reachable state of the tab, collection and space stores,
the in-memory published record list contains only non-deleted records: no
record with `is_deleted = true` is observable through the store's list
state. -/
theorem published_lists_tombstone_free (stT : TabState) (stC : CollectionState)
    (stS : SpaceState) (hT : TabReachable stT) (hC : CollectionReachable stC)
    (hS : SpaceReachable stS) :
    TabsClean stT ∧ CollectionsClean stC ∧ SpacesClean stS :=
  ⟨tabReachable_clean hT, collectionReachable_clean hC, spaceReachable_clean hS⟩

/-- A tab-store state reached by loading a stored collection that contains a
tombstone and then adding a tab. -/
def c9TabDemo : TabState :=
  (addTab "id2" "t2"
    (loadTabs { stored := [{ id := "id1", collection_id := "c1", title := "A", url := "u1",
                             order := 0, created_at := "t0", updated_at := "t0",
                             is_deleted := true }], tabs := [] })
    { collection_id := "c1", title := "B", url := "u2" }).2

/-- A collection-store state reached by one add. -/
def c9CollectionDemo : CollectionState :=
  (addCollection "id1" "t1" { stored := [], collections := [] }
    { space_id := "s1", name := "N" }).2

/-- A space-store state reached by one add and one delete. -/
def c9SpaceDemo : SpaceState :=
  deleteSpace "t2" (addSpace "id1" "t1" { stored := [], spaces := [] } { name := "S" }).2 "id1"

/-- Witness for C9 at concrete reachable states of all three stores. -/
theorem published_lists_tombstone_free_witness :
    TabsClean c9TabDemo ∧ CollectionsClean c9CollectionDemo ∧ SpacesClean c9SpaceDemo :=
  published_lists_tombstone_free _ _ _
    (TabReachable.add _ _ _ (TabReachable.load (TabReachable.init _)))
    (CollectionReachable.add _ _ _ (CollectionReachable.init _))
    (SpaceReachable.del _ _ (SpaceReachable.add _ _ _ (SpaceReachable.init _ _)))

/-! ## Claim C7 — request gateway auth gate -/

/-- A session state holding the empty string as its access token, with an
expiry far in the future. -/
def c7Auth : AuthState := { access_token := some "", token_expires_at := some 1000 }

/-- C7 counterexample: the session holds an access token (`some ""`, not
`none`) and `isTokenExpired` is `false`, so by the claim the bearer token
should be attached and the network call should proceed; but the gate
`if (!access_token || isTokenExpired())` treats the empty string as falsy
and the code fails with 401 before `fetch`. -/
theorem request_empty_token_counterexample :
    c7Auth.access_token = some "" ∧
    isTokenExpired c7Auth 500 = false ∧
    request c7Auth 500 true { ok := true, status := 200, jsonBody := some "{}" } =
      RequestResult.noFetch { status := 401, data := "Not authenticated" } := by
  decide

/-- C7 (amended): with `requiresAuth` set, if the session holds no access
token, holds the empty string as its token, or `isTokenExpired()` is true,
the call fails with a 401 authentication error before any network request is
issued; otherwise the bearer token is attached in the `Authorization` header
and the network call proceeds. -/
theorem request_auth_gate (auth : AuthState) (now : Nat) (response : HttpResponse) :
    ((auth.access_token = none ∨ auth.access_token = some "" ∨
        isTokenExpired auth now = true) →
      request auth now true response =
        RequestResult.noFetch { status := 401, data := "Not authenticated" }) ∧
    (∀ tok, auth.access_token = some tok → tok ≠ "" → isTokenExpired auth now = false →
      request auth now true response =
        RequestResult.fetched
          [("Content-Type", "application/json"), ("Authorization", "Bearer " ++ tok)]
          (handleResponse response)) := by
  constructor
  · intro h
    cases htok : auth.access_token with
    | none => simp [request, htok]
    | some tok =>
      rcases h with h1 | h2 | h3
      · rw [htok] at h1; exact absurd h1 (by simp)
      · rw [htok] at h2
        have : tok = "" := by injection h2
        simp [request, htok, this]
      · by_cases he : tok = ""
        · simp [request, htok, he]
        · simp [request, htok, he, h3]
  · intro tok htok hne hexp
    simp [request, htok, hne, hexp]

/-- Witness for C7: concrete authenticated session with token `"abc"`. -/
theorem request_auth_gate_witness :
    ((({ access_token := some "abc", token_expires_at := some 900 } : AuthState).access_token = none ∨
        ({ access_token := some "abc", token_expires_at := some 900 } : AuthState).access_token = some "" ∨
        isTokenExpired { access_token := some "abc", token_expires_at := some 900 } 500 = true) →
      request { access_token := some "abc", token_expires_at := some 900 } 500 true
          { ok := true, status := 200, jsonBody := some "{}" } =
        RequestResult.noFetch { status := 401, data := "Not authenticated" }) ∧
    (∀ tok,
      ({ access_token := some "abc", token_expires_at := some 900 } : AuthState).access_token = some tok →
      tok ≠ "" →
      isTokenExpired { access_token := some "abc", token_expires_at := some 900 } 500 = false →
      request { access_token := some "abc", token_expires_at := some 900 } 500 true
          { ok := true, status := 200, jsonBody := some "{}" } =
        RequestResult.fetched
          [("Content-Type", "application/json"), ("Authorization", "Bearer " ++ tok)]
          (handleResponse { ok := true, status := 200, jsonBody := some "{}" })) :=
  request_auth_gate { access_token := some "abc", token_expires_at := some 900 } 500
    { ok := true, status := 200, jsonBody := some "{}" }

/-! ## Claim C4 — update locates by identifier only -/

theorem updateTab_error_iff (now : String) (st : TabState) (id : String)
    (input : UpdateTabInput) :
    (updateTab now st id input).1 = Except.error StoreErr.notFound ↔
      ∀ t ∈ st.tabs, t.id ≠ id := by
  by_cases hlt : st.tabs.findIdx (fun t => t.id = id) < st.tabs.length
  · rw [updateTab_found now st id input hlt]
    constructor
    · intro h; simp at h
    · intro hall
      have hp := List.findIdx_get (w := hlt)
      have hmem := List.get_mem st.tabs _ hlt
      have hid : (st.tabs.get ⟨st.tabs.findIdx (fun t => t.id = id), hlt⟩).id = id := by
        simpa using hp
      exact absurd hid (hall _ hmem)
  · rw [updateTab_not_found now st id input hlt]
    constructor
    · intro _ t ht
      have hidx : st.tabs.findIdx (fun t => t.id = id) = st.tabs.length :=
        Nat.le_antisymm (List.findIdx_le_length _) (Nat.le_of_not_lt hlt)
      have := List.findIdx_eq_length.mp hidx t ht
      simpa using this
    · intro _; rfl

theorem updateTab_ok_of_find? (now : String) (st : TabState) (id : String)
    (input : UpdateTabInput) (tab : Tab)
    (hfind : st.tabs.find? (fun t => t.id = id) = some tab) :
    (updateTab now st id input).1 = Except.ok (applyTabUpdate tab input now) ∧
    (updateTab now st id input).2.tabs =
      st.tabs.set (st.tabs.findIdx (fun t => t.id = id)) (applyTabUpdate tab input now) ∧
    (updateTab now st id input).2.stored = (updateTab now st id input).2.tabs := by
  have hmem := List.mem_of_find?_eq_some hfind
  have hp := List.find?_some hfind
  have hlt : st.tabs.findIdx (fun t => t.id = id) < st.tabs.length :=
    List.findIdx_lt_length_of_exists ⟨tab, hmem, hp⟩
  have hget : st.tabs.get ⟨st.tabs.findIdx (fun t => t.id = id), hlt⟩ = tab := by
    have h2 := find?_eq_get_findIdx (fun t => decide (t.id = id)) st.tabs hlt
    rw [hfind] at h2
    exact (Option.some.inj h2).symm
  rw [updateTab_found now st id input hlt, hget]
  exact ⟨rfl, rfl, rfl⟩

theorem updateCollection_error_iff (now : String) (st : CollectionState) (id : String)
    (input : UpdateCollectionInput) :
    (updateCollection now st id input).1 = Except.error StoreErr.notFound ↔
      ∀ c ∈ st.collections, c.id ≠ id := by
  by_cases hlt : st.collections.findIdx (fun c => c.id = id) < st.collections.length
  · rw [updateCollection_found now st id input hlt]
    constructor
    · intro h; simp at h
    · intro hall
      have hp := List.findIdx_get (w := hlt)
      have hmem := List.get_mem st.collections _ hlt
      have hid : (st.collections.get ⟨st.collections.findIdx (fun c => c.id = id), hlt⟩).id = id := by
        simpa using hp
      exact absurd hid (hall _ hmem)
  · rw [updateCollection_not_found now st id input hlt]
    constructor
    · intro _ c hc
      have hidx : st.collections.findIdx (fun c => c.id = id) = st.collections.length :=
        Nat.le_antisymm (List.findIdx_le_length _) (Nat.le_of_not_lt hlt)
      have := List.findIdx_eq_length.mp hidx c hc
      simpa using this
    · intro _; rfl

theorem updateSpace_error_iff (now : String) (st : SpaceState) (id : String)
    (input : UpdateSpaceInput) :
    (updateSpace now st id input).1 = Except.error StoreErr.notFound ↔
      ∀ s ∈ st.spaces, s.id ≠ id := by
  by_cases hlt : st.spaces.findIdx (fun s => s.id = id) < st.spaces.length
  · rw [updateSpace_found now st id input hlt]
    constructor
    · intro h; simp at h
    · intro hall
      have hp := List.findIdx_get (w := hlt)
      have hmem := List.get_mem st.spaces _ hlt
      have hid : (st.spaces.get ⟨st.spaces.findIdx (fun s => s.id = id), hlt⟩).id = id := by
        simpa using hp
      exact absurd hid (hall _ hmem)
  · rw [updateSpace_not_found now st id input hlt]
    constructor
    · intro _ s hs
      have hidx : st.spaces.findIdx (fun s => s.id = id) = st.spaces.length :=
        Nat.le_antisymm (List.findIdx_le_length _) (Nat.le_of_not_lt hlt)
      have := List.findIdx_eq_length.mp hidx s hs
      simpa using this
    · intro _; rfl

/-! The persisted-collection superset invariant: every record of the
published list is also in the persisted list, in every reachable state —
each successful mutation persists exactly the published list, and `load`
and `delete` publish a filtered copy of what they persist. -/

theorem updateTab_sub {st : TabState} (now id : String) (input : UpdateTabInput)
    (h : ∀ t ∈ st.tabs, t ∈ st.stored) :
    ∀ t ∈ (updateTab now st id input).2.tabs, t ∈ (updateTab now st id input).2.stored := by
  by_cases hlt : st.tabs.findIdx (fun t => t.id = id) < st.tabs.length
  · rw [updateTab_found now st id input hlt]
    intro t ht
    exact ht
  · rw [updateTab_not_found now st id input hlt]
    exact h

theorem addTab_sub {st : TabState} (newId now : String) (input : CreateTabInput)
    (h : ∀ t ∈ st.tabs, t ∈ st.stored) :
    ∀ t ∈ (addTab newId now st input).2.tabs, t ∈ (addTab newId now st input).2.stored := by
  by_cases hcap : MAX_TABS_PER_COLLECTION ≤
      (st.tabs.filter (fun t => t.collection_id = input.collection_id)).length
  · rw [addTab_capacity newId now st input hcap]
    exact h
  · cases hfind : (st.tabs.filter (fun t => t.collection_id = input.collection_id)).find?
        (fun t => t.url = input.url) with
    | some ex =>
      rw [addTab_merge newId now st input ex hcap hfind]
      exact updateTab_sub now ex.id _ h
    | none =>
      rw [addTab_fresh newId now st input hcap hfind]
      intro t ht
      exact ht

theorem deleteTab_sub {st : TabState} (now id : String)
    (h : ∀ t ∈ st.tabs, t ∈ st.stored) :
    ∀ t ∈ (deleteTab now st id).tabs, t ∈ (deleteTab now st id).stored := by
  by_cases hlt : st.tabs.findIdx (fun t => t.id = id) < st.tabs.length
  · rw [deleteTab_found now st id hlt]
    intro t ht
    exact (List.mem_filter.mp ht).1
  · rw [deleteTab_not_found now st id hlt]
    exact h

theorem moveTab_sub {st : TabState} (now id target : String)
    (h : ∀ t ∈ st.tabs, t ∈ st.stored) :
    ∀ t ∈ (moveTab now st id target).2.tabs, t ∈ (moveTab now st id target).2.stored := by
  cases hfound : st.tabs.find? (fun t => t.id = id) with
  | none =>
    rw [moveTab_not_found now st id target hfound]
    exact h
  | some tab =>
    by_cases hcap : MAX_TABS_PER_COLLECTION ≤
        (st.tabs.filter (fun t => t.collection_id = target)).length
    · rw [moveTab_capacity now st id target tab hfound hcap]
      exact h
    · rw [moveTab_ok now st id target tab hfound hcap]
      exact updateTab_sub now id _ h

theorem tabReachable_sub {st : TabState} (h : TabReachable st) :
    ∀ t ∈ st.tabs, t ∈ st.stored := by
  induction h with
  | init stored => intro t ht; simp at ht
  | load _ => intro t ht; exact (List.mem_filter.mp ht).1
  | loadFail _ ih => exact ih
  | add newId now input _ ih => exact addTab_sub newId now input ih
  | update now id input _ ih => exact updateTab_sub now id input ih
  | del now id _ ih => exact deleteTab_sub now id ih
  | move now id target _ ih => exact moveTab_sub now id target ih

theorem updateCollection_sub {st : CollectionState} (now id : String)
    (input : UpdateCollectionInput) (h : ∀ c ∈ st.collections, c ∈ st.stored) :
    ∀ c ∈ (updateCollection now st id input).2.collections,
      c ∈ (updateCollection now st id input).2.stored := by
  by_cases hlt : st.collections.findIdx (fun c => c.id = id) < st.collections.length
  · rw [updateCollection_found now st id input hlt]
    intro c hc
    exact hc
  · rw [updateCollection_not_found now st id input hlt]
    exact h

theorem deleteCollection_sub {st : CollectionState} (now id : String)
    (h : ∀ c ∈ st.collections, c ∈ st.stored) :
    ∀ c ∈ (deleteCollection now st id).collections, c ∈ (deleteCollection now st id).stored := by
  by_cases hlt : st.collections.findIdx (fun c => c.id = id) < st.collections.length
  · simp only [deleteCollection]
    rw [if_pos hlt]
    intro c hc
    exact (List.mem_filter.mp hc).1
  · simp only [deleteCollection]
    rw [if_neg hlt]
    exact h

theorem collectionReachable_sub {st : CollectionState} (h : CollectionReachable st) :
    ∀ c ∈ st.collections, c ∈ st.stored := by
  induction h with
  | init stored => intro c hc; simp at hc
  | load _ => intro c hc; exact (List.mem_filter.mp hc).1
  | add newId now input _ ih => intro c hc; exact hc
  | update now id input _ ih => exact updateCollection_sub now id input ih
  | del now id _ ih => exact deleteCollection_sub now id ih

theorem setActiveSpace_stored (st : SpaceState) (id : String) :
    (setActiveSpace st id).stored = st.stored := rfl

theorem addSpace_sub {st : SpaceState} (newId now : String) (input : CreateSpaceInput)
    (h : ∀ s ∈ st.spaces, s ∈ st.stored) :
    ∀ s ∈ (addSpace newId now st input).2.spaces, s ∈ (addSpace newId now st input).2.stored := by
  simp only [addSpace]
  split
  · intro s hs
    rw [setActiveSpace_spaces] at hs
    rw [setActiveSpace_stored]
    exact hs
  · intro s hs
    exact hs

theorem updateSpace_sub {st : SpaceState} (now id : String) (input : UpdateSpaceInput)
    (h : ∀ s ∈ st.spaces, s ∈ st.stored) :
    ∀ s ∈ (updateSpace now st id input).2.spaces, s ∈ (updateSpace now st id input).2.stored := by
  by_cases hlt : st.spaces.findIdx (fun s => s.id = id) < st.spaces.length
  · rw [updateSpace_found now st id input hlt]
    intro s hs
    exact hs
  · rw [updateSpace_not_found now st id input hlt]
    exact h

theorem deleteSpace_sub {st : SpaceState} (now id : String)
    (h : ∀ s ∈ st.spaces, s ∈ st.stored) :
    ∀ s ∈ (deleteSpace now st id).spaces, s ∈ (deleteSpace now st id).stored := by
  by_cases hlt : st.spaces.findIdx (fun s => s.id = id) < st.spaces.length
  · simp only [deleteSpace]
    rw [if_pos hlt]
    split
    · split
      · intro s hs
        rw [setActiveSpace_spaces] at hs
        rw [setActiveSpace_stored]
        exact (List.mem_filter.mp hs).1
      · intro s hs
        exact (List.mem_filter.mp hs).1
    · intro s hs
      exact (List.mem_filter.mp hs).1
  · simp only [deleteSpace]
    rw [if_neg hlt]
    exact h

theorem setActiveSpace_sub {st : SpaceState} (id : String)
    (h : ∀ s ∈ st.spaces, s ∈ st.stored) :
    ∀ s ∈ (setActiveSpace st id).spaces, s ∈ (setActiveSpace st id).stored := by
  intro s hs
  rw [setActiveSpace_spaces] at hs
  rw [setActiveSpace_stored]
  exact h s hs

theorem spaceReachable_sub {st : SpaceState} (h : SpaceReachable st) :
    ∀ s ∈ st.spaces, s ∈ st.stored := by
  induction h with
  | init stored aid => intro s hs; simp at hs
  | load _ => intro s hs; exact (List.mem_filter.mp hs).1
  | add newId now input _ ih => exact addSpace_sub newId now input ih
  | update now id input _ ih => exact updateSpace_sub now id input ih
  | del now id _ ih => exact deleteSpace_sub now id ih
  | setActive id _ ih => exact setActiveSpace_sub id ih

/-- Persisted tab contents holding the tombstoned record `id1` and the live
record `id2`. -/
def c4Stored : List Tab :=
  [{ id := "id1", collection_id := "c1", title := "A", url := "u1", order := 0,
     created_at := "t0", updated_at := "t0", is_deleted := true },
   { id := "id2", collection_id := "c1", title := "B", url := "u2", order := 1,
     created_at := "t0", updated_at := "t0" }]

/-- The reachable tab-store state right after loading `c4Stored`. -/
def c4Loaded : TabState := loadTabs { stored := c4Stored, tabs := [] }

/-- C4 counterexample: at the reachable state `c4Loaded` the store holds a
soft-deleted record with identifier `id1` (in its persisted collection),
yet `updateTab` with that identifier fails with the not-found error instead
of succeeding — `load` published only the non-deleted records, so the
identifier lookup never sees the tombstone. -/
theorem update_tombstone_not_found_counterexample :
    TabReachable c4Loaded ∧
    c4Loaded.stored.any (fun t => t.id = "id1" && t.is_deleted) = true ∧
    (updateTab "t9" c4Loaded "id1" { title := some "B2" }).1 =
      Except.error StoreErr.notFound :=
  ⟨TabReachable.load (TabReachable.init c4Stored), by decide, by decide⟩

/-- C4 (amended): in every entity store, `update(id, patch)` fails with a
not-found error if and only if `id` matches no record of the in-memory
published list.  The identifier lookup itself carries no tombstone filter,
but in every reachable state the published list holds no tombstone, so a
call whose identifier matches only soft-deleted records of the persisted
collection fails with the not-found error: updating a tombstoned record
never succeeds in the running program. -/
theorem update_not_found_on_tombstoned_identifier
    (now id : String) (stT : TabState) (inputT : UpdateTabInput)
    (stC : CollectionState) (inputC : UpdateCollectionInput)
    (stS : SpaceState) (inputS : UpdateSpaceInput)
    (hT : TabReachable stT) (hC : CollectionReachable stC) (hS : SpaceReachable stS) :
    ((updateTab now stT id inputT).1 = Except.error StoreErr.notFound ↔
      ∀ t ∈ stT.tabs, t.id ≠ id) ∧
    ((∀ t ∈ stT.stored, t.id = id → t.is_deleted = true) →
      (updateTab now stT id inputT).1 = Except.error StoreErr.notFound) ∧
    ((updateCollection now stC id inputC).1 = Except.error StoreErr.notFound ↔
      ∀ c ∈ stC.collections, c.id ≠ id) ∧
    ((∀ c ∈ stC.stored, c.id = id → c.is_deleted = true) →
      (updateCollection now stC id inputC).1 = Except.error StoreErr.notFound) ∧
    ((updateSpace now stS id inputS).1 = Except.error StoreErr.notFound ↔
      ∀ s ∈ stS.spaces, s.id ≠ id) ∧
    ((∀ s ∈ stS.stored, s.id = id → s.is_deleted = true) →
      (updateSpace now stS id inputS).1 = Except.error StoreErr.notFound) := by
  refine ⟨updateTab_error_iff now stT id inputT, ?_,
          updateCollection_error_iff now stC id inputC, ?_,
          updateSpace_error_iff now stS id inputS, ?_⟩
  · intro hdel
    apply (updateTab_error_iff now stT id inputT).mpr
    intro t ht hid
    have hd := hdel t (tabReachable_sub hT t ht) hid
    have hcl := tabReachable_clean hT t ht
    rw [hcl] at hd
    simp at hd
  · intro hdel
    apply (updateCollection_error_iff now stC id inputC).mpr
    intro c hc hid
    have hd := hdel c (collectionReachable_sub hC c hc) hid
    have hcl := collectionReachable_clean hC c hc
    rw [hcl] at hd
    simp at hd
  · intro hdel
    apply (updateSpace_error_iff now stS id inputS).mpr
    intro sp hs hid
    have hd := hdel sp (spaceReachable_sub hS sp hs) hid
    have hcl := spaceReachable_clean hS sp hs
    rw [hcl] at hd
    simp at hd

/-- Persisted collection contents holding one tombstoned record. -/
def c4StoredCollections : List Collection :=
  [{ id := "id1", space_id := "s1", name := "N", order := 0, view_mode := ViewMode.list,
     created_at := "t0", updated_at := "t0", is_deleted := true }]

/-- The reachable collection-store state after loading `c4StoredCollections`. -/
def c4LoadedCollections : CollectionState :=
  loadCollections { stored := c4StoredCollections, collections := [] }

/-- Persisted space contents holding one tombstoned record. -/
def c4StoredSpaces : List Space :=
  [{ id := "id1", name := "S", order := 0, created_at := "t0", updated_at := "t0",
     is_deleted := true }]

/-- The reachable space-store state after loading `c4StoredSpaces`. -/
def c4LoadedSpaces : SpaceState := loadSpaces { stored := c4StoredSpaces, spaces := [] }

/-- Witness for C4 at concrete reachable states of all three stores, each
loaded from a persisted collection that holds a tombstoned record `id1`. -/
theorem update_not_found_on_tombstoned_identifier_witness :
    ((updateTab "t9" c4Loaded "id1" { title := some "B2" }).1 =
        Except.error StoreErr.notFound ↔
      ∀ t ∈ c4Loaded.tabs, t.id ≠ "id1") ∧
    ((∀ t ∈ c4Loaded.stored, t.id = "id1" → t.is_deleted = true) →
      (updateTab "t9" c4Loaded "id1" { title := some "B2" }).1 =
        Except.error StoreErr.notFound) ∧
    ((updateCollection "t9" c4LoadedCollections "id1" { name := some "M" }).1 =
        Except.error StoreErr.notFound ↔
      ∀ c ∈ c4LoadedCollections.collections, c.id ≠ "id1") ∧
    ((∀ c ∈ c4LoadedCollections.stored, c.id = "id1" → c.is_deleted = true) →
      (updateCollection "t9" c4LoadedCollections "id1" { name := some "M" }).1 =
        Except.error StoreErr.notFound) ∧
    ((updateSpace "t9" c4LoadedSpaces "id1" { name := some "M" }).1 =
        Except.error StoreErr.notFound ↔
      ∀ s ∈ c4LoadedSpaces.spaces, s.id ≠ "id1") ∧
    ((∀ s ∈ c4LoadedSpaces.stored, s.id = "id1" → s.is_deleted = true) →
      (updateSpace "t9" c4LoadedSpaces "id1" { name := some "M" }).1 =
        Except.error StoreErr.notFound) :=
  update_not_found_on_tombstoned_identifier "t9" "id1" c4Loaded { title := some "B2" }
    c4LoadedCollections { name := some "M" } c4LoadedSpaces { name := some "M" }
    (TabReachable.load (TabReachable.init c4Stored))
    (CollectionReachable.load (CollectionReachable.init c4StoredCollections))
    (SpaceReachable.load (SpaceReachable.init c4StoredSpaces none))

/-! ## Claim C10 — `moveTab` to the current collection counts the tab itself -/

/-- C10: when `moveTab(id, target)` is called with `target` equal to the
tab's current collection, the tab itself is counted among the destination's
siblings: at 1000 tabs (the moved one included) the call fails with the
capacity error even though no tab would be added, and otherwise the tab's
`order` is set to the sibling count including itself. -/
theorem moveTab_counts_self (now id target : String) (st : TabState) (tab : Tab)
    (hfind : st.tabs.find? (fun t => t.id = id) = some tab)
    (hcur : tab.collection_id = target) :
    tab ∈ st.tabs.filter (fun t => t.collection_id = target) ∧
    (MAX_TABS_PER_COLLECTION ≤ (st.tabs.filter (fun t => t.collection_id = target)).length →
      moveTab now st id target = (Except.error StoreErr.capacityExceeded, st)) ∧
    ((st.tabs.filter (fun t => t.collection_id = target)).length < MAX_TABS_PER_COLLECTION →
      (moveTab now st id target).1 = Except.ok () ∧
      (moveTab now st id target).2.tabs =
        st.tabs.set (st.tabs.findIdx (fun t => t.id = id))
          (applyTabUpdate tab
            { collection_id := some target,
              order := some (st.tabs.filter (fun t => t.collection_id = target)).length } now) ∧
      (applyTabUpdate tab
        { collection_id := some target,
          order := some (st.tabs.filter (fun t => t.collection_id = target)).length } now).order =
        (st.tabs.filter (fun t => t.collection_id = target)).length) := by
  refine ⟨List.mem_filter.mpr ⟨List.mem_of_find?_eq_some hfind, by simp [hcur]⟩, ?_, ?_⟩
  · intro hcap
    exact moveTab_capacity now st id target tab hfind hcap
  · intro hlt
    have hcap : ¬ MAX_TABS_PER_COLLECTION ≤
        (st.tabs.filter (fun t => t.collection_id = target)).length := Nat.not_le_of_lt hlt
    have hupd := updateTab_ok_of_find? now st id
      { collection_id := some target,
        order := some (st.tabs.filter (fun t => t.collection_id = target)).length } tab hfind
    rw [moveTab_ok now st id target tab hfind hcap]
    refine ⟨?_, ?_, rfl⟩
    · rw [hupd.1]; rfl
    · exact hupd.2.1

/-- A two-tab store used to witness C10 (move `id1` onto its own collection). -/
def c10State : TabState :=
  { stored :=
      [{ id := "id1", collection_id := "c1", title := "A", url := "u1", order := 0,
         created_at := "t0", updated_at := "t0" },
       { id := "id2", collection_id := "c1", title := "B", url := "u2", order := 1,
         created_at := "t0", updated_at := "t0" }],
    tabs :=
      [{ id := "id1", collection_id := "c1", title := "A", url := "u1", order := 0,
         created_at := "t0", updated_at := "t0" },
       { id := "id2", collection_id := "c1", title := "B", url := "u2", order := 1,
         created_at := "t0", updated_at := "t0" }] }

def c10Tab : Tab :=
  { id := "id1", collection_id := "c1", title := "A", url := "u1", order := 0,
    created_at := "t0", updated_at := "t0" }

/-- Witness for C10 at a concrete two-tab store. -/
theorem moveTab_counts_self_witness :
    c10Tab ∈ c10State.tabs.filter (fun t => t.collection_id = "c1") ∧
    (MAX_TABS_PER_COLLECTION ≤ (c10State.tabs.filter (fun t => t.collection_id = "c1")).length →
      moveTab "t1" c10State "id1" "c1" = (Except.error StoreErr.capacityExceeded, c10State)) ∧
    ((c10State.tabs.filter (fun t => t.collection_id = "c1")).length < MAX_TABS_PER_COLLECTION →
      (moveTab "t1" c10State "id1" "c1").1 = Except.ok () ∧
      (moveTab "t1" c10State "id1" "c1").2.tabs =
        c10State.tabs.set (c10State.tabs.findIdx (fun t => t.id = "id1"))
          (applyTabUpdate c10Tab
            { collection_id := some "c1",
              order := some (c10State.tabs.filter (fun t => t.collection_id = "c1")).length } "t1") ∧
      (applyTabUpdate c10Tab
        { collection_id := some "c1",
          order := some (c10State.tabs.filter (fun t => t.collection_id = "c1")).length } "t1").order =
        (c10State.tabs.filter (fun t => t.collection_id = "c1")).length) :=
  moveTab_counts_self "t1" "id1" "c1" c10State c10Tab (by decide) (by decide)

/-! ## Claims C5 and C1 — capacity ceiling and duplicate-URL merge -/

theorem filter_live_eq_of_clean {st : TabState} (hclean : TabsClean st) (c : String) :
    st.tabs.filter (fun t => t.collection_id = c && !t.is_deleted) =
      st.tabs.filter (fun t => t.collection_id = c) :=
  List.filter_congr (fun t ht => by rw [hclean t ht]; simp)

/-- C5: adding a tab with a URL not present among the destination
collection's non-deleted tabs, when the collection already holds 1000
non-deleted tabs, fails with the capacity error and writes nothing: the
persisted collection and the in-memory state are both unchanged. -/
theorem addTab_capacity_blocks (newId now : String) (st : TabState) (input : CreateTabInput)
    (hclean : TabsClean st)
    (hfull : MAX_TABS_PER_COLLECTION ≤
      (st.tabs.filter (fun t => t.collection_id = input.collection_id && !t.is_deleted)).length)
    (hfresh : ∀ t ∈ st.tabs, t.collection_id = input.collection_id → t.is_deleted = false →
      t.url ≠ input.url) :
    addTab newId now st input = (Except.error StoreErr.capacityExceeded, st) := by
  have heq := filter_live_eq_of_clean hclean input.collection_id
  rw [heq] at hfull
  exact addTab_capacity newId now st input hfull

/-- One of the 1000 tabs filling collection `"c1"`. -/
def mkBulkTab (n : Nat) : Tab :=
  { id := "tab-" ++ Nat.repr n, collection_id := "c1", title := "T", url := "u-" ++ Nat.repr n,
    order := n, created_at := "t0", updated_at := "t0" }

/-- A clean store whose collection `"c1"` holds exactly 1000 live tabs. -/
def fullState : TabState :=
  { stored := (List.range 1000).map mkBulkTab, tabs := (List.range 1000).map mkBulkTab }

theorem bulkTabs_live_filter (n : Nat) :
    ((List.range n).map mkBulkTab).filter (fun t => t.collection_id = "c1" && !t.is_deleted) =
      (List.range n).map mkBulkTab := by
  apply List.filter_eq_self.mpr
  intro t ht
  rcases List.mem_map.mp ht with ⟨m, _, rfl⟩
  rfl

theorem bulkTabs_coll_filter (n : Nat) :
    ((List.range n).map mkBulkTab).filter (fun t => t.collection_id = "c1") =
      (List.range n).map mkBulkTab := by
  apply List.filter_eq_self.mpr
  intro t ht
  rcases List.mem_map.mp ht with ⟨m, _, rfl⟩
  rfl

theorem bulkTabs_clean (n : Nat) : ∀ t ∈ (List.range n).map mkBulkTab, t.is_deleted = false := by
  intro t ht
  rcases List.mem_map.mp ht with ⟨m, _, rfl⟩
  rfl

theorem bulk_url_ne_fresh (n : Nat) : "u-" ++ Nat.repr n ≠ "fresh" := by
  intro heq
  have hdata : ("u-" ++ Nat.repr n).data = "fresh".data := congrArg String.data heq
  rw [String.data_append] at hdata
  have h2 : "u-".data = ['u', '-'] := rfl
  have h3 : "fresh".data = ['f', 'r', 'e', 's', 'h'] := rfl
  rw [h2, h3] at hdata
  simp at hdata

set_option maxRecDepth 8192 in
theorem fullState_clean : TabsClean fullState := bulkTabs_clean 1000

set_option maxRecDepth 8192 in
theorem fullState_fresh : ∀ t ∈ fullState.tabs, t.collection_id = "c1" →
    t.is_deleted = false → t.url ≠ "fresh" := by
  intro t ht _ _
  rcases List.mem_map.mp ht with ⟨n, _, rfl⟩
  exact bulk_url_ne_fresh n

set_option maxRecDepth 8192 in
theorem fullState_live_length :
    (fullState.tabs.filter (fun t => t.collection_id = "c1" && !t.is_deleted)).length = 1000 := by
  have h := bulkTabs_live_filter 1000
  show ((((List.range 1000).map mkBulkTab)).filter
    (fun t => t.collection_id = "c1" && !t.is_deleted)).length = 1000
  rw [h, List.length_map, List.length_range]

set_option maxRecDepth 8192 in
theorem fullState_full : MAX_TABS_PER_COLLECTION ≤
    (fullState.tabs.filter (fun t => t.collection_id = "c1" && !t.is_deleted)).length := by
  rw [fullState_live_length]
  exact Nat.le_refl 1000

set_option maxRecDepth 8192 in
/-- Witness for C5: the 1001st distinct URL is rejected on the full store. -/
theorem addTab_capacity_blocks_witness :
    TabsClean fullState ∧
    MAX_TABS_PER_COLLECTION ≤
      (fullState.tabs.filter (fun t => t.collection_id = "c1" && !t.is_deleted)).length ∧
    (∀ t ∈ fullState.tabs, t.collection_id = "c1" → t.is_deleted = false →
      t.url ≠ "fresh") ∧
    addTab "newid" "t1" fullState { collection_id := "c1", title := "X", url := "fresh" } =
      (Except.error StoreErr.capacityExceeded, fullState) :=
  ⟨fullState_clean, fullState_full, fullState_fresh,
   addTab_capacity_blocks "newid" "t1" fullState
     { collection_id := "c1", title := "X", url := "fresh" }
     fullState_clean fullState_full fullState_fresh⟩

set_option maxRecDepth 8192 in
/-- C1 counterexample: collection `"c1"` holds 1000 non-deleted tabs and one
of them has URL `"u-0"`; by the claim an `add` with that URL should merge
into the existing tab, but the capacity check runs *before* the duplicate
search, so the call fails with the capacity error instead of updating. -/
theorem addTab_merge_at_capacity_counterexample :
    (fullState.tabs.filter (fun t => t.collection_id = "c1" && !t.is_deleted)).length = 1000 ∧
    (∃ t ∈ fullState.tabs, t.collection_id = "c1" ∧ t.is_deleted = false ∧ t.url = "u-0") ∧
    addTab "newid" "t1" fullState { collection_id := "c1", title := "A2", url := "u-0" } =
      (Except.error StoreErr.capacityExceeded, fullState) := by
  refine ⟨fullState_live_length, ?_, ?_⟩
  · refine ⟨mkBulkTab 0, ?_, rfl, rfl, by decide⟩
    exact List.mem_map.mpr ⟨0, List.mem_range.mpr (by decide), rfl⟩
  · apply addTab_capacity
    show 1000 ≤ ((((List.range 1000).map mkBulkTab)).filter
      (fun t => t.collection_id = "c1")).length
    rw [bulkTabs_coll_filter 1000, List.length_map, List.length_range]

/-- C1 (amended): when the destination collection holds fewer than 1000
tabs, an `add` whose URL matches an existing same-collection tab becomes an
update of that tab's title and favicon only: no new record or identifier is
created and the collection's non-deleted tab count does not increase.  (At
1000 tabs the capacity check fires first — see the counterexample.) -/
theorem addTab_dedup_merge (newId now : String) (st : TabState) (input : CreateTabInput)
    (ex : Tab)
    (hclean : TabsClean st)
    (hnodup : (st.tabs.map Tab.id).Nodup)
    (hlt : (st.tabs.filter (fun t => t.collection_id = input.collection_id)).length <
        MAX_TABS_PER_COLLECTION)
    (hfind : (st.tabs.filter (fun t => t.collection_id = input.collection_id)).find?
        (fun t => t.url = input.url) = some ex) :
    (addTab newId now st input).1 =
      Except.ok (applyTabUpdate ex
        { title := some input.title, favicon := some input.favicon } now) ∧
    (applyTabUpdate ex { title := some input.title, favicon := some input.favicon } now).id =
      ex.id ∧
    (applyTabUpdate ex { title := some input.title, favicon := some input.favicon } now).title =
      input.title ∧
    (applyTabUpdate ex { title := some input.title, favicon := some input.favicon } now).favicon =
      input.favicon ∧
    (applyTabUpdate ex { title := some input.title, favicon := some input.favicon } now).url =
      ex.url ∧
    (applyTabUpdate ex { title := some input.title, favicon := some input.favicon } now).order =
      ex.order ∧
    (applyTabUpdate ex
        { title := some input.title, favicon := some input.favicon } now).collection_id =
      ex.collection_id ∧
    (applyTabUpdate ex { title := some input.title, favicon := some input.favicon } now).is_deleted =
      ex.is_deleted ∧
    (addTab newId now st input).2.tabs.map Tab.id = st.tabs.map Tab.id ∧
    ((addTab newId now st input).2.tabs.filter
        (fun t => t.collection_id = input.collection_id && !t.is_deleted)).length =
      (st.tabs.filter (fun t => t.collection_id = input.collection_id && !t.is_deleted)).length := by
  have hcap : ¬ MAX_TABS_PER_COLLECTION ≤
      (st.tabs.filter (fun t => t.collection_id = input.collection_id)).length :=
    Nat.not_le_of_lt hlt
  have hmerge := addTab_merge newId now st input ex hcap hfind
  have hexmem : ex ∈ st.tabs := (List.mem_filter.mp (List.mem_of_find?_eq_some hfind)).1
  have hlt2 : st.tabs.findIdx (fun t => t.id = ex.id) < st.tabs.length :=
    List.findIdx_lt_length_of_exists ⟨ex, hexmem, by simp⟩
  have hgid : (st.tabs.get ⟨st.tabs.findIdx (fun t => t.id = ex.id), hlt2⟩).id = ex.id := by
    simpa using List.findIdx_get (w := hlt2)
  have hgeq : st.tabs.get ⟨st.tabs.findIdx (fun t => t.id = ex.id), hlt2⟩ = ex :=
    List.inj_on_of_nodup_map hnodup (List.get_mem _ _ hlt2) hexmem hgid
  have hfindid : st.tabs.find? (fun t => t.id = ex.id) = some ex := by
    have hfg := find?_eq_get_findIdx (fun t => decide (t.id = ex.id)) st.tabs hlt2
    rw [hfg, hgeq]
  have hupd := updateTab_ok_of_find? now st ex.id
    { title := some input.title, favicon := some input.favicon } ex hfindid
  refine ⟨?_, rfl, rfl, rfl, rfl, rfl, rfl, rfl, ?_, ?_⟩
  · rw [hmerge]; exact hupd.1
  · rw [hmerge, hupd.2.1]
    exact map_set_key_eq Tab.id st.tabs _ _ hlt2 (by rw [hgeq]; rfl)

  · rw [hmerge, hupd.2.1]
    exact length_filter_set _ st.tabs _ _ hlt2 (by rw [hgeq]; rfl)

/-- A one-tab store used to witness the dedup merge. -/
def c1State : TabState :=
  { stored := [{ id := "id1", collection_id := "c1", title := "A", url := "u1", order := 0,
                 created_at := "t0", updated_at := "t0" }],
    tabs := [{ id := "id1", collection_id := "c1", title := "A", url := "u1", order := 0,
               created_at := "t0", updated_at := "t0" }] }

def c1Tab : Tab :=
  { id := "id1", collection_id := "c1", title := "A", url := "u1", order := 0,
    created_at := "t0", updated_at := "t0" }

def c1Input : CreateTabInput := { collection_id := "c1", title := "A2", url := "u1" }

/-- Witness for C1 on a concrete one-tab store. -/
theorem addTab_dedup_merge_witness :
    (addTab "newid" "t1" c1State c1Input).1 =
      Except.ok (applyTabUpdate c1Tab
        { title := some c1Input.title, favicon := some c1Input.favicon } "t1") ∧
    (applyTabUpdate c1Tab
      { title := some c1Input.title, favicon := some c1Input.favicon } "t1").id = c1Tab.id ∧
    (applyTabUpdate c1Tab
      { title := some c1Input.title, favicon := some c1Input.favicon } "t1").title =
      c1Input.title ∧
    (applyTabUpdate c1Tab
      { title := some c1Input.title, favicon := some c1Input.favicon } "t1").favicon =
      c1Input.favicon ∧
    (applyTabUpdate c1Tab
      { title := some c1Input.title, favicon := some c1Input.favicon } "t1").url = c1Tab.url ∧
    (applyTabUpdate c1Tab
      { title := some c1Input.title, favicon := some c1Input.favicon } "t1").order = c1Tab.order ∧
    (applyTabUpdate c1Tab
      { title := some c1Input.title, favicon := some c1Input.favicon } "t1").collection_id =
      c1Tab.collection_id ∧
    (applyTabUpdate c1Tab
      { title := some c1Input.title, favicon := some c1Input.favicon } "t1").is_deleted =
      c1Tab.is_deleted ∧
    (addTab "newid" "t1" c1State c1Input).2.tabs.map Tab.id = c1State.tabs.map Tab.id ∧
    ((addTab "newid" "t1" c1State c1Input).2.tabs.filter
        (fun t => t.collection_id = c1Input.collection_id && !t.is_deleted)).length =
      (c1State.tabs.filter
        (fun t => t.collection_id = c1Input.collection_id && !t.is_deleted)).length :=
  addTab_dedup_merge "newid" "t1" c1State c1Input c1Tab
    (by decide) (by decide) (by decide) (by decide)

/-! ## Claim C3 — persistence of tombstones -/

def c3s0 : TabState := { stored := [], tabs := [] }
def c3s1 : TabState := (addTab "id1" "t1" c3s0 { collection_id := "c1", title := "A", url := "u1" }).2
def c3s2 : TabState := (addTab "id2" "t2" c3s1 { collection_id := "c1", title := "B", url := "u2" }).2
def c3s3 : TabState := deleteTab "t3" c3s2 "id1"
def c3s4 : TabState := (addTab "id4" "t4" c3s3 { collection_id := "c1", title := "C", url := "u3" }).2

/-- C3 counterexample: the record `id1` is created and present in storage,
`deleteTab` retains it there as a tombstone, but the very next `addTab`
persists the tombstone-filtered in-memory list, physically erasing `id1`
from the persisted collection — so a record does *not* remain in storage
forever. -/
theorem tombstone_physically_erased_counterexample :
    c3s1.stored.any (fun t => t.id = "id1") = true ∧
    c3s3.stored.any (fun t => t.id = "id1" && t.is_deleted) = true ∧
    c3s4.stored.any (fun t => t.id = "id1") = false := by
  decide

theorem updateTab_write_through (now : String) (st : TabState) (id : String)
    (u : UpdateTabInput) (tab : Tab) (st' : TabState)
    (heq : updateTab now st id u = (Except.ok tab, st')) : st'.stored = st'.tabs := by
  by_cases hlt : st.tabs.findIdx (fun t => t.id = id) < st.tabs.length
  · rw [updateTab_found now st id u hlt] at heq
    have h2 := congrArg Prod.snd heq
    simp only at h2
    rw [← h2]
  · rw [updateTab_not_found now st id u hlt] at heq
    simp at heq

theorem addTab_write_through (newId now : String) (st : TabState) (input : CreateTabInput)
    (tab : Tab) (st' : TabState)
    (heq : addTab newId now st input = (Except.ok tab, st')) : st'.stored = st'.tabs := by
  by_cases hcap : MAX_TABS_PER_COLLECTION ≤
      (st.tabs.filter (fun t => t.collection_id = input.collection_id)).length
  · rw [addTab_capacity newId now st input hcap] at heq
    simp at heq
  · cases hfind : (st.tabs.filter (fun t => t.collection_id = input.collection_id)).find?
        (fun t => t.url = input.url) with
    | some ex =>
      rw [addTab_merge newId now st input ex hcap hfind] at heq
      exact updateTab_write_through now st ex.id _ tab st' heq
    | none =>
      rw [addTab_fresh newId now st input hcap hfind] at heq
      have h2 := congrArg Prod.snd heq
      simp only at h2
      rw [← h2]

/-- C3 (amended): each mutation persists the whole updated collection in a
single write — `deleteTab` itself writes the full list with the deleted
record retained as a tombstone (`is_deleted = true`), and a successful
`addTab`/`updateTab` writes exactly the new in-memory list.  But because the
published in-memory list excludes tombstones, that later write drops
previously tombstoned records from storage: a record is *not* guaranteed to
remain in the persisted collection forever (see the counterexample). -/
theorem soft_delete_single_write (now newId : String) (st : TabState) (id : String)
    (input : CreateTabInput) (uinput : UpdateTabInput)
    (h : st.tabs.findIdx (fun t => t.id = id) < st.tabs.length) :
    (deleteTab now st id).stored =
      st.tabs.map (fun t => if t.id = id then { t with is_deleted := true, updated_at := now }
                            else t) ∧
    (∀ t ∈ st.tabs, t.id = id →
      ({ t with is_deleted := true, updated_at := now } : Tab) ∈ (deleteTab now st id).stored) ∧
    (deleteTab now st id).tabs =
      (deleteTab now st id).stored.filter (fun t => !t.is_deleted) ∧
    (∀ tab st', addTab newId now st input = (Except.ok tab, st') → st'.stored = st'.tabs) ∧
    (∀ tab st', updateTab now st id uinput = (Except.ok tab, st') → st'.stored = st'.tabs) := by
  refine ⟨?_, ?_, ?_, ?_, ?_⟩
  · rw [deleteTab_found now st id h]
  · intro t ht hid
    have hfe : (fun x : Tab =>
        if x.id = id then ({ x with is_deleted := true, updated_at := now } : Tab) else x) t =
        ({ t with is_deleted := true, updated_at := now } : Tab) := if_pos hid
    have hmem := List.mem_map_of_mem
      (fun x : Tab =>
        if x.id = id then ({ x with is_deleted := true, updated_at := now } : Tab) else x) ht
    rw [hfe] at hmem
    rw [deleteTab_found now st id h]
    exact hmem
  · rw [deleteTab_found now st id h]
  · intro tab st' heq
    exact addTab_write_through newId now st input tab st' heq
  · intro tab st' heq
    exact updateTab_write_through now st id uinput tab st' heq

/-- Witness for C3 at the concrete two-tab state `c3s2`, deleting `id1`. -/
theorem soft_delete_single_write_witness :
    ((deleteTab "t3" c3s2 "id1").stored =
      c3s2.tabs.map (fun t => if t.id = "id1" then { t with is_deleted := true, updated_at := "t3" }
                              else t)) ∧
    (∀ t ∈ c3s2.tabs, t.id = "id1" →
      ({ t with is_deleted := true, updated_at := "t3" } : Tab) ∈ (deleteTab "t3" c3s2 "id1").stored) ∧
    (deleteTab "t3" c3s2 "id1").tabs =
      (deleteTab "t3" c3s2 "id1").stored.filter (fun t => !t.is_deleted) ∧
    (∀ tab st', addTab "id9" "t3" c3s2 { collection_id := "c1", title := "Z", url := "u9" } =
      (Except.ok tab, st') → st'.stored = st'.tabs) ∧
    (∀ tab st', updateTab "t3" c3s2 "id1" { title := some "Z" } =
      (Except.ok tab, st') → st'.stored = st'.tabs) :=
  soft_delete_single_write "t3" "id9" c3s2 "id1"
    { collection_id := "c1", title := "Z", url := "u9" } { title := some "Z" } (by decide)

/-! ## Claim C6 — `order` is the live sibling count (append at end) -/

theorem collections_filter_live_eq_of_clean {st : CollectionState}
    (hclean : CollectionsClean st) (sid : String) :
    st.collections.filter (fun c => c.space_id = sid && !c.is_deleted) =
      st.collections.filter (fun c => c.space_id = sid) :=
  List.filter_congr (fun c hc => by rw [hclean c hc]; simp)

/-- Run a list of `(newId, now, input)` tab adds in order, collecting the
successfully created tabs. -/
def addTabSeq (st : TabState) : List (String × String × CreateTabInput) → List Tab × TabState
  | [] => ([], st)
  | (newId, now, input) :: rest =>
    match addTab newId now st input with
    | (Except.ok t, st1) =>
        let r := addTabSeq st1 rest
        (t :: r.1, r.2)
    | (Except.error _, st1) => addTabSeq st1 rest

theorem addTabSeq_orders (c : String) (inputs : List (String × String × CreateTabInput)) :
    ∀ st : TabState, TabsClean st →
    (∀ i ∈ inputs, i.2.2.collection_id = c) →
    (∀ i ∈ inputs, ∀ t ∈ st.tabs, t.collection_id = c → t.url ≠ i.2.2.url) →
    inputs.Pairwise (fun i j => i.2.2.url ≠ j.2.2.url) →
    (st.tabs.filter (fun t => t.collection_id = c)).length + inputs.length ≤
      MAX_TABS_PER_COLLECTION →
    (addTabSeq st inputs).1.map Tab.order =
      List.range' (st.tabs.filter (fun t => t.collection_id = c)).length inputs.length := by
  induction inputs with
  | nil =>
    intro st _ _ _ _ _
    simp [addTabSeq]
  | cons i rest ih =>
    obtain ⟨newId, now, input⟩ := i
    intro st hclean hcoll hfresh hpair hcap
    have hic : input.collection_id = c := hcoll _ (List.mem_cons_self _ _)
    have hklt : (st.tabs.filter (fun t => t.collection_id = input.collection_id)).length <
        MAX_TABS_PER_COLLECTION := by
      rw [hic]
      simp only [List.length_cons] at hcap
      omega
    have hfind : (st.tabs.filter (fun t => t.collection_id = input.collection_id)).find?
        (fun t => t.url = input.url) = none := by
      apply List.find?_eq_none.mpr
      intro t ht
      have hmem := List.mem_filter.mp ht
      have htc : t.collection_id = c := by
        have h2 := hmem.2
        rw [hic] at h2
        simpa using h2
      have := hfresh _ (List.mem_cons_self _ _) t hmem.1 htc
      simpa using this
    have hcapn : ¬ MAX_TABS_PER_COLLECTION ≤
        (st.tabs.filter (fun t => t.collection_id = input.collection_id)).length :=
      Nat.not_le_of_lt hklt
    have hstep := addTab_fresh newId now st input hcapn hfind
    have hpc := List.pairwise_cons.mp hpair
    simp only [addTabSeq, hstep]
    set newTab : Tab :=
      { id := newId
        collection_id := input.collection_id
        title := input.title
        url := input.url
        favicon := input.favicon
        description := input.description
        order := (st.tabs.filter (fun t => t.collection_id = input.collection_id)).length
        tags := input.tags
        created_at := now
        updated_at := now } with hnew
    have hfilter_app : ((st.tabs ++ [newTab]).filter (fun t => t.collection_id = c)) =
        (st.tabs.filter (fun t => t.collection_id = c)) ++ [newTab] := by
      rw [List.filter_append]
      congr 1
      rw [List.filter_cons]
      simp [hic]
    have hclean1 : ∀ t ∈ st.tabs ++ [newTab], t.is_deleted = false := by
      intro t ht
      rcases List.mem_append.mp ht with h1 | h1
      · exact hclean t h1
      · rw [List.mem_singleton.mp h1]
    have hfresh1 : ∀ i ∈ rest, ∀ t ∈ st.tabs ++ [newTab],
        t.collection_id = c → t.url ≠ i.2.2.url := by
      intro i hi t ht htc
      rcases List.mem_append.mp ht with h1 | h1
      · exact hfresh i (List.mem_cons_of_mem _ hi) t h1 htc
      · rw [List.mem_singleton.mp h1]
        exact fun hne => (hpc.1 i hi) hne
    have ihr := ih { st with stored := st.tabs ++ [newTab], tabs := st.tabs ++ [newTab] }
      hclean1 (fun i hi => hcoll i (List.mem_cons_of_mem _ hi)) hfresh1 hpc.2 ?hcap1
    case hcap1 =>
      show ((st.tabs ++ [newTab]).filter (fun t => t.collection_id = c)).length + rest.length ≤
        MAX_TABS_PER_COLLECTION
      rw [hfilter_app]
      simp only [List.length_append, List.length_cons, List.length_nil] at hcap ⊢
      omega
    rw [List.map_cons, ihr, hfilter_app]
    have horder : newTab.order = (st.tabs.filter (fun t => t.collection_id = c)).length := by
      rw [hnew]
      simp only [hic]
    rw [horder]
    simp only [List.length_append, List.length_cons, List.length_nil, List.length_cons]
    rw [List.range'_succ]

/-- C6: the order field of every freshly constructed record equals the count
of non-deleted same-parent siblings at call time, for the Tab store and the
Collection store; and a sequence of duplicate-free adds into one collection
produces tabs whose order values are exactly the consecutive insertion
ranks (hence strictly increasing). -/
theorem add_order_is_live_sibling_count
    (newId now : String) (st : TabState) (input : CreateTabInput)
    (newIdC nowC : String) (stC : CollectionState) (inputC : CreateCollectionInput)
    (c : String) (inputs : List (String × String × CreateTabInput)) (st0 : TabState)
    (hclean : TabsClean st)
    (hlt : (st.tabs.filter (fun t => t.collection_id = input.collection_id)).length <
        MAX_TABS_PER_COLLECTION)
    (hfresh : (st.tabs.filter (fun t => t.collection_id = input.collection_id)).find?
        (fun t => t.url = input.url) = none)
    (hcleanC : CollectionsClean stC)
    (hclean0 : TabsClean st0)
    (hcoll0 : ∀ i ∈ inputs, i.2.2.collection_id = c)
    (hfresh0 : ∀ i ∈ inputs, ∀ t ∈ st0.tabs, t.collection_id = c → t.url ≠ i.2.2.url)
    (hpair0 : inputs.Pairwise (fun i j => i.2.2.url ≠ j.2.2.url))
    (hcap0 : (st0.tabs.filter (fun t => t.collection_id = c)).length + inputs.length ≤
        MAX_TABS_PER_COLLECTION) :
    ((addTab newId now st input).1.map Tab.order) = Except.ok
      ((st.tabs.filter
        (fun t => t.collection_id = input.collection_id && !t.is_deleted)).length) ∧
    (addCollection newIdC nowC stC inputC).1.order =
      (stC.collections.filter
        (fun col => col.space_id = inputC.space_id && !col.is_deleted)).length ∧
    (addTabSeq st0 inputs).1.map Tab.order =
      List.range' (st0.tabs.filter (fun t => t.collection_id = c)).length inputs.length ∧
    ((addTabSeq st0 inputs).1.map Tab.order).Pairwise (· < ·) := by
  refine ⟨?_, ?_, ?_, ?_⟩
  · rw [addTab_fresh newId now st input (Nat.not_le_of_lt hlt) hfresh]
    rw [filter_live_eq_of_clean hclean input.collection_id]
    rfl
  · rw [collections_filter_live_eq_of_clean hcleanC inputC.space_id]
    rfl
  · exact addTabSeq_orders c inputs st0 hclean0 hcoll0 hfresh0 hpair0 hcap0
  · rw [addTabSeq_orders c inputs st0 hclean0 hcoll0 hfresh0 hpair0 hcap0]
    exact List.pairwise_lt_range' _ _

def c6EmptyState : TabState := { stored := [], tabs := [] }

def c6EmptyCollections : CollectionState := { stored := [], collections := [] }

def c6Inputs : List (String × String × CreateTabInput) :=
  [("idA", "tA", { collection_id := "c9", title := "A", url := "a" }),
   ("idB", "tB", { collection_id := "c9", title := "B", url := "b" })]

/-- Witness for C6: a fresh add on a one-tab store, a collection add, and a
two-element duplicate-free sequence on an empty store. -/
theorem add_order_is_live_sibling_count_witness :
    ((addTab "id2" "t2" c1State { collection_id := "c1", title := "B", url := "u2" }).1.map
        Tab.order) = Except.ok
      ((c1State.tabs.filter (fun t => t.collection_id = "c1" && !t.is_deleted)).length) ∧
    (addCollection "idC" "tC" c6EmptyCollections { space_id := "s1", name := "N" }).1.order =
      (c6EmptyCollections.collections.filter
        (fun col => col.space_id = "s1" && !col.is_deleted)).length ∧
    (addTabSeq c6EmptyState c6Inputs).1.map Tab.order =
      List.range' (c6EmptyState.tabs.filter (fun t => t.collection_id = "c9")).length
        c6Inputs.length ∧
    ((addTabSeq c6EmptyState c6Inputs).1.map Tab.order).Pairwise (· < ·) :=
  add_order_is_live_sibling_count "id2" "t2" c1State
    { collection_id := "c1", title := "B", url := "u2" }
    "idC" "tC" c6EmptyCollections { space_id := "s1", name := "N" }
    "c9" c6Inputs c6EmptyState
    (by decide) (by decide) (by decide) (by decide) (by decide) (by decide) (by decide)
    (by decide) (by decide)

/-! ## Claim C8 — `generateSignature` is lowercase hex of HMAC-SHA-256 -/

set_option maxRecDepth 10000 in
theorem jsHexByte_eq_hexByteLower_fin : ∀ b : Fin 256, jsHexByte b.val = hexByteLower b.val := by
  decide

theorem jsHexByte_eq_hexByteLower {b : Nat} (h : b < 256) : jsHexByte b = hexByteLower b :=
  jsHexByte_eq_hexByteLower_fin ⟨b, h⟩

theorem wordBytes_lt (w : Nat) : ∀ b ∈ wordBytes w, b < 256 := by
  intro b hb
  simp only [wordBytes, List.mem_cons, List.not_mem_nil, or_false] at hb
  rcases hb with h | h | h | h <;>
    (rw [h]; exact Nat.mod_lt _ (by norm_num))

theorem hashBytes_mem_lt (h : Hash8) : ∀ b ∈ hashBytes h, b < 256 := by
  intro b hb
  simp only [hashBytes, List.mem_append] at hb
  rcases hb with (((((((hb | hb) | hb) | hb) | hb) | hb) | hb) | hb) <;> exact wordBytes_lt _ b hb

theorem hashBytes_length (h : Hash8) : (hashBytes h).length = 32 := by
  simp [hashBytes, wordBytes]

theorem sha256_mem_lt (msg : List Nat) : ∀ b ∈ sha256 msg, b < 256 := by
  intro b hb
  exact hashBytes_mem_lt _ b hb

theorem sha256_length (msg : List Nat) : (sha256 msg).length = 32 :=
  hashBytes_length _

theorem hmacSha256_mem_lt (k m : List Nat) : ∀ b ∈ hmacSha256 k m, b < 256 := by
  intro b hb
  exact sha256_mem_lt _ b hb

theorem hmacSha256_length (k m : List Nat) : (hmacSha256 k m).length = 32 :=
  sha256_length _

theorem foldl_append_data (l : List String) (acc : String) :
    (l.foldl (· ++ ·) acc).data = acc.data ++ (l.map String.data).flatten := by
  induction l generalizing acc with
  | nil => simp
  | cons s rest ih =>
    simp only [List.foldl_cons, ih, List.map_cons, List.flatten_cons, String.data_append]
    rw [List.append_assoc]

theorem join_data (l : List String) : (String.join l).data = (l.map String.data).flatten := by
  have h := foldl_append_data l ""
  simpa [String.join] using h

theorem hexByteLower_data (b : Nat) :
    (hexByteLower b).data = [hexDigitLower (b / 16), hexDigitLower (b % 16)] := rfl

theorem hexDigitLower_mem_fin : ∀ n : Fin 16, hexDigitLower n.val ∈ "0123456789abcdef".data := by
  decide

theorem hexDigitLower_mem {n : Nat} (h : n < 16) : hexDigitLower n ∈ "0123456789abcdef".data :=
  hexDigitLower_mem_fin ⟨n, h⟩

theorem lowercaseHex_data (bytes : List Nat) :
    (lowercaseHex bytes).data = ((bytes.map hexByteLower).map String.data).flatten :=
  join_data (bytes.map hexByteLower)

theorem lowercaseHex_length (bytes : List Nat) :
    (lowercaseHex bytes).length = 2 * bytes.length := by
  have h1 : (lowercaseHex bytes).length = ((lowercaseHex bytes).data).length := rfl
  suffices h : ∀ l : List Nat, (((l.map hexByteLower).map String.data).flatten).length =
      2 * l.length by
    rw [h1, lowercaseHex_data]
    exact h bytes
  intro l
  induction l with
  | nil => rfl
  | cons a t ih =>
    simp only [List.map_cons, List.flatten_cons, List.length_append, ih, hexByteLower_data,
      List.length_cons, List.length_nil]
    omega

theorem lowercaseHex_chars (bytes : List Nat) (hb : ∀ b ∈ bytes, b < 256) :
    ∀ ch ∈ (lowercaseHex bytes).data, ch ∈ "0123456789abcdef".data := by
  intro ch hch
  rw [lowercaseHex_data] at hch
  rcases List.mem_flatten.mp hch with ⟨l, hl, hcl⟩
  rcases List.mem_map.mp hl with ⟨s, hs, rfl⟩
  rcases List.mem_map.mp hs with ⟨b, hbmem, rfl⟩
  rw [hexByteLower_data] at hcl
  have hblt := hb b hbmem
  have hdiv : b / 16 < 16 := by omega
  have hmod : b % 16 < 16 := by omega
  simp only [List.mem_cons, List.not_mem_nil, or_false] at hcl
  rcases hcl with h | h
  · rw [h]; exact hexDigitLower_mem hdiv
  · rw [h]; exact hexDigitLower_mem hmod

theorem generateSignature_eq_signatureSpec (secret email nonce : String) (authAt : Nat)
    (purpose : String) :
    generateSignature secret email nonce authAt purpose =
      signatureSpec secret email nonce authAt purpose := by
  show String.join ((hmacSha256 (utf8Bytes secret)
      (utf8Bytes (email ++ ":" ++ nonce ++ ":" ++ Nat.repr authAt ++ ":" ++ purpose))).map
        jsHexByte) =
    String.join ((hmacSha256 (utf8Bytes secret)
      (utf8Bytes (email ++ ":" ++ nonce ++ ":" ++ Nat.repr authAt ++ ":" ++ purpose))).map
        hexByteLower)
  congr 1
  apply List.map_congr_left
  intro b hb
  exact jsHexByte_eq_hexByteLower (hmacSha256_mem_lt _ _ b hb)

/-- C8: `generateSignature(email, nonce, authAt, purpose)` returns exactly
the lowercase hexadecimal encoding — 64 hex digits — of HMAC-SHA-256 under
the shared signing secret of the canonical string `email:nonce:authAt:purpose`
(with `authAt` rendered in decimal). -/
theorem generateSignature_is_hex_hmac (secret email nonce : String) (authAt : Nat)
    (purpose : String) :
    generateSignature secret email nonce authAt purpose =
      lowercaseHex (hmacSha256 (utf8Bytes secret)
        (utf8Bytes (canonicalString email nonce authAt purpose))) ∧
    canonicalString email nonce authAt purpose =
      email ++ ":" ++ nonce ++ ":" ++ Nat.repr authAt ++ ":" ++ purpose ∧
    (generateSignature secret email nonce authAt purpose).length = 64 ∧
    ∀ ch ∈ (generateSignature secret email nonce authAt purpose).data,
      ch ∈ "0123456789abcdef".data := by
  have heq := generateSignature_eq_signatureSpec secret email nonce authAt purpose
  refine ⟨heq, rfl, ?_, ?_⟩
  · rw [heq]
    show (lowercaseHex (hmacSha256 (utf8Bytes secret)
      (utf8Bytes (canonicalString email nonce authAt purpose)))).length = 64
    rw [lowercaseHex_length, hmacSha256_length]
  · rw [heq]
    exact lowercaseHex_chars _ (hmacSha256_mem_lt _ _)

end OpenTabs
